import Mathlib

/-!
Verification development for the `logger` repository: a shallow embedding of
the Redis-backed log ingestion pipeline (`src/server/log_processor_redis.py`),
the Redis query engine (`src/server/redis_log_api.py`) and the file-scan
fallback's field extraction and time-filter grammar (`src/log_api.py`),
together with theorems settling the behavioural claims about them.

Modelling conventions:
* Python strings are Lean `String`s; all character-level operations are
  defined on `List Char` so that they reduce in the kernel.
* `datetime` values are modelled as integer seconds; naive local-time
  arithmetic (`replace(hour=0,...)`, `timedelta`) becomes integer arithmetic
  on an 86400-second day.  Sub-second precision (the `.999999` microsecond
  end-of-day marker) is dropped: end of day is second 86399.
* `hashlib.md5` is used by the code only as a deterministic key-derivation
  function; it is modelled as the identity encoding (a collision-free
  idealisation), so equal inputs give equal keys and distinct inputs give
  distinct keys.
* Redis sorted sets are lists of members; `decode_responses=True` JSON
  round-trips are modelled as the identity, so a member is the structured
  entry itself.
-/

/-- Lowercase one character, as Python `str.lower` does on ASCII input. -/
def lowerChar (c : Char) : Char :=
  if 'A' ≤ c && c ≤ 'Z' then Char.ofNat (c.toNat + 32) else c

/-- Lowercase a string (ASCII), modelling Python `str.lower()`. -/
def lowerStr (s : String) : String := ⟨s.data.map lowerChar⟩

/-- Does `l` start with `p`? (List-level prefix test.) -/
def startsWithL : List Char → List Char → Bool
  | _, [] => true
  | [], _ :: _ => false
  | c :: cs, p :: ps => c = p && startsWithL cs ps

/-- Does `hay` contain `needle` as a contiguous subsequence?
Models Python's `needle in hay` on strings. -/
def containsL : List Char → List Char → Bool
  | [], needle => needle.isEmpty
  | c :: cs, needle => startsWithL (c :: cs) needle || containsL cs needle

/-- Python `needle in hay` for strings. -/
def strContains (hay needle : String) : Bool := containsL hay.data needle.data

/-- Python `hay.startswith(p)` / glob-prefix matching helper. -/
def strStarts (hay p : String) : Bool := startsWithL hay.data p.data

/-- Python whitespace test (`str.strip` / regex `\s`) for the ASCII range. -/
def isSpaceChar (c : Char) : Bool :=
  c = ' ' || c = '\t' || c = '\n' || c = '\r' || c = '\x0b' || c = '\x0c'

/-- Python `str.strip()`. -/
def stripStr (s : String) : String :=
  ⟨((s.data.dropWhile isSpaceChar).reverse.dropWhile isSpaceChar).reverse⟩

/-- ASCII decimal digit test (regex `\d`). -/
def isDigitChar (c : Char) : Bool := '0' ≤ c && c ≤ '9'

/-- Regex `\w` word-character test (ASCII letters, digits, underscore). -/
def isWordChar (c : Char) : Bool :=
  isDigitChar c || ('a' ≤ c && c ≤ 'z') || ('A' ≤ c && c ≤ 'Z') || c = '_'

/-- Case-insensitive character comparison (regex `re.IGNORECASE`). -/
def ciEq (a b : Char) : Bool := lowerChar a = lowerChar b

/-- Case-insensitive literal match at the head of the input; returns the rest. -/
def matchCi : List Char → List Char → Option (List Char)
  | l, [] => some l
  | [], _ :: _ => none
  | c :: cs, p :: ps => if ciEq c p then matchCi cs ps else none

/-- Case-sensitive literal match at the head of the input; returns the rest. -/
def matchLit : List Char → List Char → Option (List Char)
  | l, [] => some l
  | [], _ :: _ => none
  | c :: cs, p :: ps => if c = p then matchLit cs ps else none

/-- Greedy `\d+`: the maximal leading digit run (must be nonempty) and the rest. -/
def takeDigits1 (l : List Char) : Option (List Char × List Char) :=
  let ds := l.takeWhile isDigitChar
  if ds.isEmpty then none else some (ds, l.drop ds.length)

/-- Exactly `n` digits at the head of the input; returns them and the rest. -/
def takeDigitsN : Nat → List Char → Option (List Char × List Char)
  | 0, l => some ([], l)
  | _ + 1, [] => none
  | n + 1, c :: cs =>
    if isDigitChar c then
      (takeDigitsN n cs).map (fun p => (c :: p.1, p.2))
    else none

/-- Decimal digit list to `Nat` (Python `int(...)` on a digit capture). -/
def digitsToNat (ds : List Char) : Nat :=
  ds.foldl (fun acc c => acc * 10 + (c.toNat - '0'.toNat)) 0

/-- Apply a position matcher at every position left to right and return the
first (leftmost) result — the semantics of `re.search`. -/
def scanFirst {α : Type} (m : List Char → Option α) : List Char → Option α
  | [] => m []
  | c :: cs =>
    match m (c :: cs) with
    | some r => some r
    | none => scanFirst m cs

/-!
### Time filters

`parse_time_filter` exists twice: the rich version in `src/log_api.py`
(Pacific-timezone phrases) and the simplified version at the bottom of
`src/server/redis_log_api.py`.  Both are modelled.  `datetime.now(tz)` is the
parameter `now` (seconds); `datetime.fromisoformat` (a stdlib function, only
reached in the absolute-timestamp branch) is the abstract parameter `fromIso`.
-/

/-- Midnight of the day containing `t` (`replace(hour=0, minute=0, second=0)`)
in naive seconds-since-epoch local arithmetic. -/
def startOfDay (t : Int) : Int := t - t.emod 86400

/-- `replace(hour=23, minute=59, second=59, microsecond=999999)`, at
one-second granularity. -/
def endOfDay (t : Int) : Int := startOfDay t + 86399

/-- Regex `(\d{1,2})\s*(am|pm)` position matcher: one or two digits (greedy,
with backtracking), optional whitespace, then `am`/`pm`; returns the captured
hour and whether the marker was `pm`.  The input is already lowercased. -/
def matchAmPmAt (l : List Char) : Option (Nat × Bool) :=
  match l with
  | c1 :: rest =>
    if isDigitChar c1 then
      let tryTail (ds : List Char) (tl : List Char) : Option (Nat × Bool) :=
        let tl' := tl.dropWhile isSpaceChar
        match matchLit tl' ['a', 'm'] with
        | some _ => some (digitsToNat ds, false)
        | none =>
          match matchLit tl' ['p', 'm'] with
          | some _ => some (digitsToNat ds, true)
          | none => none
      match rest with
      | c2 :: rest2 =>
        if isDigitChar c2 then
          match tryTail [c1, c2] rest2 with
          | some r => some r
          | none => tryTail [c1] rest
        else tryTail [c1] rest
      | [] => tryTail [c1] rest
    else none
  | [] => none

/-- `re.search(r'(\d{1,2})\s*(am|pm)', s)` on a lowercased string. -/
def findAmPm (s : String) : Option (Nat × Bool) := scanFirst matchAmPmAt s.data

/-- Regex `(\d+)\s*minutes` position matcher on a lowercased string. -/
def matchMinutesAt (l : List Char) : Option Nat :=
  match takeDigits1 l with
  | some (ds, rest) =>
    match matchLit (rest.dropWhile isSpaceChar) ['m', 'i', 'n', 'u', 't', 'e', 's'] with
    | some _ => some (digitsToNat ds)
    | none => none
  | none => none

/-- `re.search(r'(\d+)\s*minutes', s)` on a lowercased string. -/
def findMinutes (s : String) : Option Nat := scanFirst matchMinutesAt s.data

/-- Convert a 12-hour am/pm capture into a 24-hour value, as the code does. -/
def amPmHour (h : Nat) (isPm : Bool) : Nat :=
  if isPm && h ≠ 12 then h + 12
  else if !isPm && h = 12 then 0
  else h

/-- `parse_time_filter` from `src/log_api.py`.  `now` is
`datetime.now(pacific_tz)` in seconds; `fromIso` models
`datetime.fromisoformat` (returning `none` when it would raise, which the
surrounding `try` turns into `(None, None)`).  `replace(hour=h)` raises for
`h ≥ 24`, also yielding `(None, None)` through the same `try`. -/
def parseTimeFilterApi (fromIso : String → Option Int) (now : Int) (timeStr : String) :
    Option (Int × Int) :=
  if timeStr = "" then none
  else
    let low := lowerStr timeStr
    if strContains low "yesterday" then
      let yesterday := now - 86400
      if strContains low "around" && (strContains low "am" || strContains low "pm") then
        match findAmPm low with
        | some (h, isPm) =>
          let h' := amPmHour h isPm
          if h' < 24 then
            let start := startOfDay yesterday + h' * 3600
            some (start, start + 7200)
          else none
        | none => none
      else
        some (startOfDay yesterday, endOfDay yesterday)
    else if strContains low "today" then
      if strContains low "around" && (strContains low "am" || strContains low "pm") then
        match findAmPm low with
        | some (h, isPm) =>
          let h' := amPmHour h isPm
          if h' < 24 then
            let start := startOfDay now + h' * 3600
            some (start, start + 7200)
          else none
        | none => none
      else
        some (startOfDay now, endOfDay now)
    else if strContains low "last" && strContains low "hour" then
      some (now - 3600, now)
    else if strContains low "last" && strContains low "minutes" then
      match findMinutes low with
      | some m => some (now - m * 60, now)
      | none => none
    else if strContains timeStr "T" then
      match fromIso (String.replace timeStr "Z" "+00:00") with
      | some t => some (t - 1800, t + 1800)
      | none => none
    else none

/-- `parse_time_filter` from `src/server/redis_log_api.py` (simplified
version used by the Redis query routes).  Returns the `(start, end)` pair,
each possibly `None`. -/
def parseTimeFilterRedis (now : Int) (timeStr : String) : Option Int × Option Int :=
  if timeStr = "" then (none, none)
  else
    let low := lowerStr timeStr
    if strContains low "last hour" then (some (now - 3600), some now)
    else if strContains low "today" then (some (startOfDay now), some now)
    else if strContains low "yesterday" then
      let yesterday := now - 86400
      (some (startOfDay yesterday), some (endOfDay yesterday))
    else (none, none)

/-!
### Query engine (`src/server/redis_log_api.py`, class `RedisLogAPI`)

Sorted-set members are the structured log entries themselves (`QEntry`,
carrying the event-time score `ts` and the message); the writer always sets a
member's score to its event time, so the score is intrinsic to the member.
The store holds the host's sorted sets in Redis scan order (which Redis does
not specify; the model keeps it as the list order) plus the query cache.
-/

/-- A deserialised sorted-set member: event-time score and message text. -/
structure QEntry where
  ts : Int
  msg : String
deriving DecidableEq, Repr

/-- The filter parameters accepted by `RedisLogAPI.get_logs`. -/
structure QParams where
  host : String
  app : Option String
  component : Option String
  level : Option String
  refresh_id : Option String
  step : Option String
  startTime : Option Int
  endTime : Option Int
  search : Option String
  limit : Nat
  offset : Nat
deriving DecidableEq, Repr

/-- A log entry enriched by `_enrich_log_data_from_sorted_set` with the
requested host/app/component (the latter two may be Python `None`). -/
structure EnLog where
  entry : QEntry
  host : String
  app : Option String
  component : Option String
deriving DecidableEq, Repr

/-- The `get_logs` response dictionary (`query_time_ms` is the constant 0 and
`source` the constant `"redis_cache"` in the code; they are elided). -/
structure QueryResultM where
  logs : List EnLog
  total : Nat
  limit : Nat
  offset : Nat
deriving DecidableEq, Repr

/-- The Redis store as seen by the query engine: sorted sets in scan order,
and the query cache (TTL expiry is not modelled; a cache entry being present
models "present and unexpired"). -/
structure QStore where
  sets : List (String × List QEntry)
  cache : List (String × QueryResultM)
deriving DecidableEq, Repr

/-- `base_key` construction of `get_logs` (lines 47–52): a direct sorted-set
key when both `app` and `component` are given, otherwise a wildcard pattern. -/
def baseKeyOf (p : QParams) : String :=
  match p.app, p.component with
  | some a, some c => "logs:" ++ p.host ++ ":" ++ a ++ ":" ++ c
  | some a, none => "logs:" ++ p.host ++ ":" ++ a ++ ":*"
  | none, _ => "logs:" ++ p.host ++ ":*"

/-- `query_key` construction of `get_logs` (lines 55–61): the first present
filter among `level`, `refresh_id`, `step` is appended — later ones are
ignored. -/
def queryKeyOf (p : QParams) : String :=
  baseKeyOf p ++
    (match p.level, p.refresh_id, p.step with
     | some l, _, _ => ":level:" ++ l
     | none, some r, _ => ":refresh:" ++ r
     | none, none, some s => ":step:" ++ s
     | none, none, none => "")

/-- `start_score` (lines 64–68): 0 when no start time is given. -/
def startScoreOf (p : QParams) : Int :=
  match p.startTime with
  | some t => t
  | none => 0

/-- The string rendering of `end_score` used in the cache-key content:
`'+inf'` when no end time is given. -/
def endScoreStr (p : QParams) : String :=
  match p.endTime with
  | some t => toString t
  | none => "+inf"

/-- `hashlib.md5(content).hexdigest()` modelled as the identity encoding of
`content` (md5 is used purely as a deterministic key-derivation function). -/
def md5Model (s : String) : String := s

/-- `_generate_cache_key` (lines 232–239): hash of
`query_key:start:end:limit:offset:normalized_search`, where an absent search
text is normalised to the empty string. -/
def generateCacheKey (queryKey : String) (startS : String) (endS : String)
    (limit offset : Nat) (search : Option String) : String :=
  md5Model (queryKey ++ ":" ++ startS ++ ":" ++ endS ++ ":" ++ toString limit ++ ":" ++
    toString offset ++ ":" ++ (match search with | some q => q | none => ""))

/-- The cache key `get_logs` computes for its parameters (line 73). -/
def cacheKeyOf (p : QParams) : String :=
  generateCacheKey (queryKeyOf p) (toString (startScoreOf p)) (endScoreStr p)
    p.limit p.offset p.search

/-- Score-descending order on entries (Redis `ZREVRANGEBYSCORE` order; Redis
breaks score ties in reverse-lexicographic member order, the model keeps the
stable sort order — no claim depends on tie order). -/
def descTs (a b : QEntry) : Prop := b.ts ≤ a.ts

instance : DecidableRel descTs := fun a b => inferInstanceAs (Decidable (b.ts ≤ a.ts))

instance : IsTotal QEntry descTs := ⟨fun a b => le_total b.ts a.ts⟩

instance : IsTrans QEntry descTs := ⟨fun _ _ _ h1 h2 => le_trans h2 h1⟩

/-- `ZREVRANGEBYSCORE key end start LIMIT offset num`: members with score in
`[start, end]` (`end = none` is `+inf`), highest score first, then the
`LIMIT offset num` window. -/
def zrevrangebyscore (l : List QEntry) (endS : Option Int) (startS : Int)
    (offset num : Nat) : List QEntry :=
  ((((l.filter (fun e => startS ≤ e.ts &&
      (match endS with | some t => e.ts ≤ t | none => true))).insertionSort
      descTs).drop offset).take num)

/-- Look a sorted set up by key; a missing key is the empty set. -/
def lookupSet (σ : QStore) (k : String) : List QEntry :=
  (σ.sets.lookup k).getD []

/-- Does the key name one of the legacy filtered secondary sets?  The code
tests the substrings `:level:` / `:refresh:` / `:step:` (lines 200–201). -/
def isFilteredKey (k : String) : Bool :=
  strContains k ":level:" || strContains k ":refresh:" || strContains k ":step:"

/-- The per-key selection test of `_get_wildcard_logs_from_sorted_sets`
(lines 198–216): glob-match the scan pattern, then — when any filter is
present — keep only the filtered sets matching every present filter, and
otherwise keep only the main (unfiltered) sets. -/
def wildcardSelect (pat : String) (level refresh step : Option String)
    (k : String) : Bool :=
  strStarts k (String.mk (pat.data.dropLast)) &&
  (if level.isSome || refresh.isSome || step.isSome then
    isFilteredKey k &&
    (match level with | some l => strContains k (":level:" ++ l) | none => true) &&
    (match refresh with | some r => strContains k (":refresh:" ++ r) | none => true) &&
    (match step with | some s => strContains k (":step:" ++ s) | none => true)
  else !isFilteredKey k)

/-- The accumulation loop of `_get_wildcard_logs_from_sorted_sets`
(lines 198–227): per matching set, fetch up to `lim` members newest-first and
append; stop as soon as `lim` entries have accumulated.  Note the per-set
results are appended WITHOUT a global re-sort. -/
def wildcardLoop (sel : String → Bool) (fetch : List QEntry → List QEntry)
    (lim : Nat) : List (String × List QEntry) → List QEntry → List QEntry
  | [], acc => acc
  | kv :: rest, acc =>
    if sel kv.1 then
      let acc' := acc ++ fetch kv.2
      if lim ≤ acc'.length then acc' else wildcardLoop sel fetch lim rest acc'
    else wildcardLoop sel fetch lim rest acc

/-- `_get_wildcard_logs_from_sorted_sets(pattern, start, end, limit, ...)`
(lines 190–230). -/
def getWildcardLogs (σ : QStore) (pat : String) (startS : Int) (endS : Option Int)
    (lim : Nat) (level refresh step : Option String) : List QEntry :=
  (wildcardLoop (wildcardSelect pat level refresh step)
    (fun l => zrevrangebyscore l endS startS 0 lim) lim σ.sets []).take lim

/-- The `search_query` skip test of the result loop (line 106):
case-insensitive substring on the message. -/
def searchKeeps (search : Option String) (e : QEntry) : Bool :=
  match search with
  | some q => strContains (lowerStr e.msg) (lowerStr q)
  | none => true

/-- `_enrich_log_data_from_sorted_set(log_data, host, app, component)`
(lines 344–353): attach the requested host/app/component to the entry. -/
def enrichEntry (host : String) (app component : Option String) (e : QEntry) : EnLog :=
  { entry := e, host := host, app := app, component := component }

/-- `RedisLogAPI.get_logs` (lines 40–128), on an available store (the failure
modes are modelled separately in `getLogsPy`): resolve the key, consult the
cache, otherwise fetch (wildcard loop / filtered set / primary set), apply the
search filter, enrich, and write the result through to the cache. -/
def getLogs (p : QParams) (σ : QStore) : QueryResultM × QStore :=
  let wild := p.app.isNone || p.component.isNone
  let ck := "cache:" ++ cacheKeyOf p
  match σ.cache.lookup ck with
  | some r => (r, σ)
  | none =>
    let logKeys : List QEntry :=
      if wild then
        getWildcardLogs σ (baseKeyOf p) (startScoreOf p) p.endTime
          (p.limit + p.offset) p.level p.refresh_id p.step
      else if p.level.isSome || p.refresh_id.isSome || p.step.isSome then
        zrevrangebyscore (lookupSet σ (queryKeyOf p)) p.endTime (startScoreOf p)
          p.offset p.limit
      else
        zrevrangebyscore (lookupSet σ (baseKeyOf p)) p.endTime (startScoreOf p)
          p.offset p.limit
    let logs := (logKeys.filter (searchKeeps p.search)).map
      (enrichEntry p.host p.app p.component)
    let r : QueryResultM :=
      { logs := logs, total := logKeys.length, limit := p.limit, offset := p.offset }
    (r, { σ with cache := (ck, r) :: σ.cache })

/-!
### HTTP route `get_host_logs_redis` (lines 405–453) and failure modes

`getLogsPy` adds the two store-failure modes of the query path:
`cacheUp = false` models the backing store being unavailable from the start
(the cache `GET` at line 74 sits before the `try` block, so the exception
propagates out of `get_logs` into the route's handler); `queryUp = false`
models a store operation raising inside the `try` (lines 78–134), which
`get_logs` itself converts into an error dictionary — and skips the cache
write.  Flask's `jsonify(result)` without an explicit status code returns
HTTP 200 in both handlers.
-/

/-- A JSON payload of the query route: the success fields plus the optional
`error` field of the two error shapes. -/
structure Payload where
  logs : List EnLog
  total : Nat
  error : Option String
  limit : Option Nat
  offset : Option Nat
deriving DecidableEq, Repr

/-- The success payload for a query result. -/
def okPayload (r : QueryResultM) : Payload :=
  { logs := r.logs, total := r.total, error := none,
    limit := some r.limit, offset := some r.offset }

/-- `get_logs` with failure injection: `.error` is an exception escaping
`get_logs`; an exception inside its `try` yields the error dictionary of
lines 130–134 (empty logs, total 0) with no cache write. -/
def getLogsPy (cacheUp queryUp : Bool) (errMsg : String) (p : QParams)
    (σ : QStore) : Except String (Payload × QStore) :=
  if !cacheUp then .error errMsg
  else
    match σ.cache.lookup ("cache:" ++ cacheKeyOf p) with
    | some r => .ok (okPayload r, σ)
    | none =>
      if !queryUp then
        .ok ({ logs := [], total := 0, error := some errMsg,
               limit := none, offset := none }, σ)
      else
        let (r, σ') := getLogs p σ
        .ok (okPayload r, σ')

/-- The route handler `get_host_logs_redis` (lines 431–453): `jsonify` a
successful result, and catch any exception into an error payload — in both
cases with the default HTTP status 200. -/
def getHostLogsRedis (cacheUp queryUp : Bool) (errMsg : String) (p : QParams)
    (σ : QStore) : (Payload × Nat) × QStore :=
  match getLogsPy cacheUp queryUp errMsg p σ with
  | .ok (pl, σ') => ((pl, 200), σ')
  | .error e =>
    (({ logs := [], total := 0,
        error := some ("Error in get_host_logs_redis: " ++ e),
        limit := none, offset := none }, 200), σ)

/-!
### Ingestion pipeline (`src/server/log_processor_redis.py`)

`_parse_log_line` is embedded regex-by-regex (each `re.search` becomes a
leftmost scanner); `_store_log_entry` is embedded as a trace of Redis
operations (`storeOps`) plus an interpreter (`applyOps`), so the same
definition serves both the state-level claims (caps, fan-out, idempotence)
and the failure-sequencing claim.  `datetime.fromisoformat(...).timestamp()`
(the score computation) is the abstract parameter `epochOf`; the
`fromisoformat`/`isoformat` round-trip on a matched timestamp string is
modelled as the identity after `' ' → 'T'` normalisation (exact for
offset-bearing and fraction-free stamps; microsecond zero-padding and
calendar-validity rejection are not modelled — no claim depends on them).
-/

/-- A parsed log entry, the dictionary built at lines 272–282 of
`_parse_log_line`.  Python `None` is `Option.none`; the `clean_entry` loop of
`_store_log_entry` (lines 287–290) drops `None` values, which is exactly this
`Option` structure (all remaining values are already strings). -/
structure Entry where
  timestamp : String
  level : String
  message : String
  file_path : String
  line_number : Nat
  refresh_id : Option String
  step : Option String
  step_name : Option String
  indexed_at : String
deriving DecidableEq, Repr

/-- Python truthiness of an optional string (`if clean_entry.get(k):`):
present and nonempty. -/
def truthy : Option String → Bool
  | some s => !(s = "")
  | none => false

/-- `[+-]\d{2}:\d{2}` — the UTC-offset tail of the first timestamp pattern. -/
def isoTzTail (r : List Char) : Option (List Char) := do
  let r ← match matchLit r ['+'] with
          | some r2 => some r2
          | none => matchLit r ['-']
  let (_, r) ← takeDigitsN 2 r
  let r ← matchLit r [':']
  let (_, r) ← takeDigitsN 2 r
  pure r

/-- `\.\d+` — the fractional-seconds tail of the timestamp patterns. -/
def fracTail (r : List Char) : Option (List Char) := do
  let r ← matchLit r ['.']
  let (_, r) ← takeDigits1 r
  pure r

/-- `\d{4}-\d{2}-\d{2}<sep>\d{2}:\d{2}:\d{2}` — the common timestamp core,
with `sep` being `T` or a space. -/
def isoCore (sep : Char) (l : List Char) : Option (List Char) := do
  let (_, r) ← takeDigitsN 4 l
  let r ← matchLit r ['-']
  let (_, r) ← takeDigitsN 2 r
  let r ← matchLit r ['-']
  let (_, r) ← takeDigitsN 2 r
  let r ← matchLit r [sep]
  let (_, r) ← takeDigitsN 2 r
  let r ← matchLit r [':']
  let (_, r) ← takeDigitsN 2 r
  let r ← matchLit r [':']
  let (_, r) ← takeDigitsN 2 r
  pure r

/-- Position matcher for timestamp pattern 1,
`\d{4}-\d{2}-\d{2}T\d{2}:\d{2}:\d{2}(?:\.\d+)?[+-]\d{2}:\d{2}` (with the
optional group's greedy-then-empty backtracking). -/
def matchIso1At (l : List Char) : Option (List Char) := do
  let r ← isoCore 'T' l
  match fracTail r with
  | some r2 =>
    match isoTzTail r2 with
    | some r3 => pure r3
    | none => isoTzTail r
  | none => isoTzTail r

/-- Position matcher for timestamp pattern 2,
`\d{4}-\d{2}-\d{2}T\d{2}:\d{2}:\d{2}(?:\.\d+)?`. -/
def matchIso2At (l : List Char) : Option (List Char) := do
  let r ← isoCore 'T' l
  match fracTail r with
  | some r2 => pure r2
  | none => pure r

/-- Position matcher for timestamp pattern 3,
`\d{4}-\d{2}-\d{2} \d{2}:\d{2}:\d{2}`. -/
def matchIso3At (l : List Char) : Option (List Char) := isoCore ' ' l

/-- `re.search` for a rest-returning position matcher: leftmost match,
returned as the matched text. -/
def searchMatch (m : List Char → Option (List Char)) (l : List Char) :
    Option (List Char) :=
  scanFirst (fun tail => (m tail).map (fun rest => tail.take (tail.length - rest.length))) l

/-- The `'T' → ' '`-then-`isoformat()` round trip of the pattern-3 branch:
the stored string has `T` where the matched text had a space. -/
def spaceToT (m : List Char) : List Char :=
  m.map (fun c => if c = ' ' then 'T' else c)

/-- Timestamp extraction (lines 230–252): the three patterns are tried in
order; the stored value is the (normalised) matched text, `none` meaning the
`datetime.now()` fallback. -/
def extractTimestampStr (line : List Char) : Option (List Char) :=
  match searchMatch matchIso1At line with
  | some m => some m
  | none =>
    match searchMatch matchIso2At line with
    | some m => some m
    | none => (searchMatch matchIso3At line).map spaceToT

/-- Try the level keywords of `\b(DEBUG|INFO|WARNING|WARN|ERROR|CRITICAL|FATAL)\b`
in alternation order at one position (case-insensitively), requiring a word
boundary after the match; returns the canonical upper-case keyword
(`group(1).upper()`). -/
def tryLevelKwsAt (l : List Char) : Option String :=
  goKws ["DEBUG", "INFO", "WARNING", "WARN", "ERROR", "CRITICAL", "FATAL"]
where
  goKws : List String → Option String
    | [] => none
    | kw :: rest =>
      match matchCi l kw.data with
      | some tl =>
        if (match tl with | [] => true | c :: _ => !isWordChar c) then some kw
        else goKws rest
      | none => goKws rest

/-- Leftmost `\b`-anchored keyword scan; the boolean argument tracks whether
the previous character was a word character (no boundary there). -/
def scanLevel : Bool → List Char → Option String
  | _, [] => none
  | prevW, c :: cs =>
    match (if prevW then none else tryLevelKwsAt (c :: cs)) with
    | some kw => some kw
    | none => scanLevel (isWordChar c) cs

/-- Level extraction (lines 255–256): keyword match or the `INFO` default. -/
def findLevel (line : List Char) : String := (scanLevel false line).getD "INFO"

/-- Position matcher for `\[Refresh-(\d+)\]` (line 263); the capture is the
digit run only. -/
def matchRefreshAt (l : List Char) : Option String := do
  let r ← matchLit l ("[Refresh-".data)
  let (ds, r2) ← takeDigits1 r
  let _ ← matchLit r2 [']']
  pure (String.mk ds)

/-- `re.search(r'\[Refresh-(\d+)\]', line)`. -/
def findRefreshTag (line : List Char) : Option String := scanFirst matchRefreshAt line

/-- Position matcher for `step\s*(\d+)(?:/[89])?` (case-insensitive,
line 269); the optional `/[89]` does not affect the capture. -/
def matchStepAt (l : List Char) : Option String := do
  let r ← matchCi l ("step".data)
  let (ds, _) ← takeDigits1 (r.dropWhile isSpaceChar)
  pure (String.mk ds)

/-- `re.search(r'step\s*(\d+)(?:/[89])?', line, re.IGNORECASE)`. -/
def findStepNum (line : List Char) : Option String := scanFirst matchStepAt line

/-- Python `str.replace('.log', '')`: drop every (left-to-right,
non-overlapping) occurrence of `.log`. -/
def removeDotLog : List Char → List Char
  | '.' :: 'l' :: 'o' :: 'g' :: rest => removeDotLog rest
  | c :: cs => c :: removeDotLog cs
  | [] => []

/-- `_extract_refresh_id_and_step` (lines 206–223): for a structured
IPTV-orchestrator path, the directory after `iptv-orchestrator` is the
refresh id and the next component (with `.log` removed) the step name.
`file_path.parts` is the list `parts`. -/
def extractRefreshIdAndStep (parts : List String) : Option String × Option String :=
  if parts.contains "iptv-orchestrator" then
    let i := parts.indexOf "iptv-orchestrator"
    if i + 2 < parts.length then
      (some (parts.getD (i + 1) ""),
       some (String.mk (removeDotLog (parts.getD (i + 2) "").data)))
    else (none, none)
  else (none, none)

/-- `_extract_component_name` (lines 184–204): path segment first, then
filename substring checks, then the `general` default. -/
def extractComponentName (parts : List String) : String :=
  if parts.contains "iptv-orchestrator" then "iptv-orchestrator"
  else
    let filename := (parts.getLast?).getD ""
    if strContains filename "iptv-orchestrator" then "iptv-orchestrator"
    else if strContains filename "epg-processor" then "epg-processor"
    else if strContains filename "automated-recording" then "automated-recording"
    else if strContains filename "application" then "application"
    else if strContains filename "api" then "api"
    else "general"

/-- `_extract_app_name` (lines 173–182): path segments, then a substring
check on the whole path string (`str(file_path)` is modelled as the
`/`-joined parts). -/
def extractAppName (parts : List String) : String :=
  if parts.contains "sports-scheduler" then "sports-scheduler"
  else if parts.contains "auto-scraper" then "auto-scraper"
  else if strContains (String.intercalate "/" parts) "system" then "system"
  else "unknown"

/-- `_parse_log_line(line, file_path, line_num)` (lines 225–282).  `nowIso`
is `datetime.now().isoformat()`.  Path-derived `refresh_id`/`step_name` take
precedence; the message regexes are fallbacks guarded by Python truthiness. -/
def parseLogLine (line : String) (parts : List String) (lineNum : Nat)
    (nowIso : String) : Entry :=
  let tsStr := match extractTimestampStr line.data with
    | some m => String.mk m
    | none => nowIso
  let pathPair := extractRefreshIdAndStep parts
  let rid := if truthy pathPair.1 then pathPair.1 else findRefreshTag line.data
  let stp := if truthy pathPair.2 then none else findStepNum line.data
  { timestamp := tsStr, level := findLevel line.data, message := stripStr line,
    file_path := String.intercalate "/" parts, line_number := lineNum,
    refresh_id := rid, step := stp, step_name := pathPair.2, indexed_at := nowIso }

/-- The JSON object `json.dumps(clean_entry)` serialises, as an ordered
association list: dict-literal key order with `None` entries dropped and all
values already strings (`str(line_number)` included). -/
def entryDict (e : Entry) : List (String × String) :=
  [("timestamp", e.timestamp), ("level", e.level), ("message", e.message),
   ("file_path", e.file_path), ("line_number", toString e.line_number)] ++
  (match e.refresh_id with | some r => [("refresh_id", r)] | none => []) ++
  (match e.step with | some s => [("step", s)] | none => []) ++
  (match e.step_name with | some s => [("step_name", s)] | none => []) ++
  [("indexed_at", e.indexed_at)]

/-- `logs:{host}:{app}:{component}` — the primary index set key. -/
def primaryKeyW (h a c : String) : String := "logs:" ++ h ++ ":" ++ a ++ ":" ++ c

/-- `{index_key}:level:{level}` — the legacy level index key. -/
def levelKeyW (h a c lv : String) : String := primaryKeyW h a c ++ ":level:" ++ lv

/-- `logs:{host}:{app}:{component}:{refresh_id}:{step_name}` — structured
per-step key. -/
def stepKeyW (h a c r s : String) : String :=
  primaryKeyW h a c ++ ":" ++ r ++ ":" ++ s

/-- `logs:{host}:{app}:{component}:{refresh_id}:all` — refresh-wide
aggregate key. -/
def refreshAggKeyW (h a c r : String) : String :=
  primaryKeyW h a c ++ ":" ++ r ++ ":all"

/-- `{step_key}:level:{level}` — per-step level key. -/
def stepLevelKeyW (h a c r s lv : String) : String :=
  stepKeyW h a c r s ++ ":level:" ++ lv

/-- `{index_key}:refresh:{refresh_id}` — legacy flat refresh key. -/
def legacyRefreshKeyW (h a c r : String) : String :=
  primaryKeyW h a c ++ ":refresh:" ++ r

/-- `{index_key}:step:{step}` — legacy flat step key. -/
def legacyStepKeyW (h a c st : String) : String :=
  primaryKeyW h a c ++ ":step:" ++ st

/-- `logs:stats:{host}:{app}` — the statistics hash key. -/
def statsKeyW (h a : String) : String := "logs:stats:" ++ h ++ ":" ++ a

/-- One Redis operation issued by `_store_log_entry`.  `zremKeepTop k n` is
`zremrangebyrank(k, 0, -(n+1))`: evict all but the `n` highest-scored
members. -/
inductive WOp where
  | zadd (key : String) (e : Entry) (score : Int)
  | expire (key : String) (ttl : Int)
  | zremKeepTop (key : String) (keep : Nat)
  | hincrby (key field : String) (amount : Int)
deriving DecidableEq, Repr

/-- The step key a record would use: `refresh_id`/`step_name` rendered as in
`clean_entry` (the structured segment only runs when both are truthy). -/
def stepKeyOfE (e : Entry) (host app comp : String) : String :=
  stepKeyW host app comp (e.refresh_id.getD "") (e.step_name.getD "")

/-- The refresh-aggregate key a record would use. -/
def aggKeyOfE (e : Entry) (host app comp : String) : String :=
  refreshAggKeyW host app comp (e.refresh_id.getD "")

/-- The per-step level key a record would use. -/
def stepLevelKeyOfE (e : Entry) (host app comp : String) : String :=
  stepLevelKeyW host app comp (e.refresh_id.getD "") (e.step_name.getD "") e.level

/-- The level key a record uses. -/
def levelKeyOfE (e : Entry) (host app comp : String) : String :=
  levelKeyW host app comp e.level

/-- The legacy refresh key a record would use. -/
def legacyRKeyOfE (e : Entry) (host app comp : String) : String :=
  legacyRefreshKeyW host app comp (e.refresh_id.getD "")

/-- The legacy step key a record would use. -/
def legacySKeyOfE (e : Entry) (host app comp : String) : String :=
  legacyStepKeyW host app comp (e.step.getD "")

/-- Lines 301–327 of `_store_log_entry` (the structured-IPTV fan-out):
step key, refresh-aggregate key and step-level key, each zadd + expire +
trim (1000 / 5000 / 500). -/
def structSeg (e : Entry) (host app comp : String) (score : Int) (ttl : Int) :
    List WOp :=
  [WOp.zadd (stepKeyOfE e host app comp) e score,
   WOp.expire (stepKeyOfE e host app comp) ttl,
   WOp.zremKeepTop (stepKeyOfE e host app comp) 1000,
   WOp.zadd (aggKeyOfE e host app comp) e score,
   WOp.expire (aggKeyOfE e host app comp) ttl,
   WOp.zremKeepTop (aggKeyOfE e host app comp) 5000,
   WOp.zadd (stepLevelKeyOfE e host app comp) e score,
   WOp.expire (stepLevelKeyOfE e host app comp) ttl,
   WOp.zremKeepTop (stepLevelKeyOfE e host app comp) 500]

/-- Lines 329–339: primary set (trim 10000) and level set (trim 1000). -/
def coreSeg (e : Entry) (host app comp : String) (score : Int) (ttl : Int) :
    List WOp :=
  [WOp.zadd (primaryKeyW host app comp) e score,
   WOp.expire (primaryKeyW host app comp) ttl,
   WOp.zremKeepTop (primaryKeyW host app comp) 10000,
   WOp.zadd (levelKeyOfE e host app comp) e score,
   WOp.expire (levelKeyOfE e host app comp) ttl,
   WOp.zremKeepTop (levelKeyOfE e host app comp) 1000]

/-- Lines 341–345: legacy refresh set — zadd + expire, NO trim. -/
def legacyRSeg (e : Entry) (host app comp : String) (score : Int) (ttl : Int) :
    List WOp :=
  [WOp.zadd (legacyRKeyOfE e host app comp) e score,
   WOp.expire (legacyRKeyOfE e host app comp) ttl]

/-- Lines 347–351: legacy step set — zadd + expire, NO trim. -/
def legacySSeg (e : Entry) (host app comp : String) (score : Int) (ttl : Int) :
    List WOp :=
  [WOp.zadd (legacySKeyOfE e host app comp) e score,
   WOp.expire (legacySKeyOfE e host app comp) ttl]

/-- Lines 353–357: the statistics counters. -/
def statsSeg (e : Entry) (host app : String) (ttl : Int) : List WOp :=
  [WOp.hincrby (statsKeyW host app) "total_logs" 1,
   WOp.hincrby (statsKeyW host app) ("level_" ++ e.level) 1,
   WOp.expire (statsKeyW host app) ttl]

/-- The operation trace of `_store_log_entry(log_entry, host, app, component)`
(lines 284–357), in program order: the structured IPTV trio when the record
is a structured IPTV-orchestrator one, then the primary and level sets, then
the legacy refresh/step sets when the corresponding field is truthy, then the
statistics counters.  `epochOf e.timestamp` is the `timestamp_score`. -/
def storeOps (epochOf : String → Int) (ttl : Int) (e : Entry)
    (host app comp : String) : List WOp :=
  (if comp = "iptv-orchestrator" && truthy e.refresh_id && truthy e.step_name then
    structSeg e host app comp (epochOf e.timestamp) ttl
  else []) ++
  (coreSeg e host app comp (epochOf e.timestamp) ttl ++
  ((if truthy e.refresh_id then legacyRSeg e host app comp (epochOf e.timestamp) ttl
    else []) ++
  ((if truthy e.step then legacySSeg e host app comp (epochOf e.timestamp) ttl
    else []) ++
  statsSeg e host app ttl)))

/-- The writer's view of the Redis store: sorted sets (member–score pairs,
member uniqueness maintained by `zaddList`) and the statistics hashes.  TTL
expiry is not modelled (`expire` is a no-op on this state). -/
structure WStore where
  zsets : String → List (Entry × Int)
  stats : String → String → Int

/-- The empty store. -/
def emptyW : WStore := { zsets := fun _ => [], stats := fun _ _ => 0 }

/-- `ZADD key {member: score}`: update the score of an existing member, else
add the member. -/
def zaddList (e : Entry) (score : Int) (l : List (Entry × Int)) : List (Entry × Int) :=
  if l.any (fun p => decide (p.1 = e)) then
    l.map (fun p => if p.1 = e then (e, score) else p)
  else (e, score) :: l

/-- Score-descending order on members (ties keep stable order; Redis breaks
them in reverse-lexicographic member order — no claim depends on ties). -/
def descScore (a b : Entry × Int) : Prop := b.2 ≤ a.2

instance : DecidableRel descScore := fun a b => inferInstanceAs (Decidable (b.2 ≤ a.2))

instance : IsTotal (Entry × Int) descScore := ⟨fun a b => le_total b.2 a.2⟩

instance : IsTrans (Entry × Int) descScore := ⟨fun _ _ _ h1 h2 => le_trans h2 h1⟩

/-- `ZREMRANGEBYRANK key 0 -(keep+1)`: keep only the `keep` highest-scored
members (the oldest-by-score are evicted). -/
def trimTop (keep : Nat) (l : List (Entry × Int)) : List (Entry × Int) :=
  (l.insertionSort descScore).take keep

/-- Point update of a sorted-set map. -/
def updZ (f : String → List (Entry × Int)) (k : String) (v : List (Entry × Int)) :
    String → List (Entry × Int) :=
  fun k' => if k' = k then v else f k'

/-- Interpret one Redis operation on the store. -/
def applyOp (σ : WStore) : WOp → WStore
  | .zadd k e s => { σ with zsets := updZ σ.zsets k (zaddList e s (σ.zsets k)) }
  | .expire _ _ => σ
  | .zremKeepTop k keep => { σ with zsets := updZ σ.zsets k (trimTop keep (σ.zsets k)) }
  | .hincrby k f n =>
    { σ with stats := fun k' f' =>
        if k' = k ∧ f' = f then σ.stats k' f' + n else σ.stats k' f' }

/-- Interpret a list of operations in order. -/
def applyOps (σ : WStore) (ops : List WOp) : WStore := ops.foldl applyOp σ

/-- One `_store_log_entry` call as a state transformer. -/
def storeStep (epochOf : String → Int) (ttl : Int) (e : Entry)
    (host app comp : String) (σ : WStore) : WStore :=
  applyOps σ (storeOps epochOf ttl e host app comp)

/-- One record's indexing request: its entry and key-schema coordinates. -/
structure SCall where
  e : Entry
  host : String
  app : String
  comp : String
deriving Repr

/-- A run of the index writer over a list of records. -/
def runW (epochOf : String → Int) (ttl : Int) (calls : List SCall) (σ : WStore) :
    WStore :=
  calls.foldl (fun σ c => storeStep epochOf ttl c.e c.host c.app c.comp σ) σ

/-- Membership of an entry (under any score) in a sorted set. -/
def memberZ (e : Entry) (l : List (Entry × Int)) : Prop := ∃ s, (e, s) ∈ l

/-- Sequential execution with failure injection: Python raises at the first
operation for which `fail` holds, so exactly the operations up to and
including it are attempted. -/
def runFail (fail : WOp → Bool) : List WOp → List WOp
  | [] => []
  | op :: rest => if fail op then [op] else op :: runFail fail rest

/-- Index (plus one) of the first failing operation, or the full length when
none fails. -/
def attemptCount (fail : WOp → Bool) : List WOp → Nat
  | [] => 0
  | op :: rest => if fail op then 1 else attemptCount fail rest + 1

/-!
### File-task processing (`_process_file_task`, lines 94–136) for claim C9
-/

/-- A file as seen by one processing pass: path parts, `stat()` data and
content lines. -/
structure FileRec where
  parts : List String
  size : Nat
  mtime : Int
  lines : List String

/-- `_get_file_hash` (lines 132–136): md5 (modelled as the identity encoding)
of `path:size:mtime`. -/
def fileHash (f : FileRec) : String :=
  md5Model (String.intercalate "/" f.parts ++ ":" ++ toString f.size ++ ":" ++
    toString f.mtime)

/-- `logs:meta:{host}:{file_hash}` — the per-file cursor key. -/
def metaKeyW (host fh : String) : String := "logs:meta:" ++ host ++ ":" ++ fh

/-- The file-cursor hash written at lines 118–124 (`worker_id` elided; only
`processed_at` is ever read back). -/
structure MetaV where
  file_path : String
  file_size : Nat
  processed_at : Int
  logs_count : Nat
deriving DecidableEq, Repr

/-- The processor's store: the index writer's store plus the file cursors. -/
structure PStore where
  w : WStore
  meta : String → Option MetaV

/-- `_parse_and_store_file` (lines 138–171): skip oversized files, cap the
line count to the LAST `maxLines` lines (Python's `lines[-max:]`, which for
`max = 0` keeps everything), then parse and store the lines newest-first
(`enumerate(reversed(lines))` numbers them in that order), skipping blank
lines.  Returns the store and the processed count. -/
def parseAndStoreFile (epochOf : String → Int) (ttl : Int)
    (maxFileSize maxLines : Nat) (nowIso : String) (host : String)
    (f : FileRec) (σ : WStore) : WStore × Nat :=
  if maxFileSize < f.size then (σ, 0)
  else
    let app := extractAppName f.parts
    let comp := extractComponentName f.parts
    let ls := if f.lines.length ≤ maxLines then f.lines
      else if maxLines = 0 then f.lines
      else f.lines.drop (f.lines.length - maxLines)
    ls.reverse.enum.foldl (fun acc pr =>
      if stripStr pr.2 = "" then acc
      else
        let e := parseLogLine pr.2 f.parts pr.1 nowIso
        (storeStep epochOf ttl e host app comp acc.1, acc.2 + 1)) (σ, 0)

/-- `_process_file_task` (lines 94–130): compute the file fingerprint; if the
cursor for it exists and the file's mtime is not newer than its
`processed_at`, drop the task; otherwise parse and store the file and write
the cursor with `processed_at = now`. -/
def processFileTask (epochOf : String → Int) (ttl : Int)
    (maxFileSize maxLines : Nat) (now : Int) (nowIso : String) (host : String)
    (f : FileRec) (σ : PStore) : PStore :=
  let mk := metaKeyW host (fileHash f)
  let body : PStore :=
    let pr := parseAndStoreFile epochOf ttl maxFileSize maxLines nowIso host f σ.w
    { w := pr.1,
      meta := fun k => if k = mk then
          some { file_path := String.intercalate "/" f.parts, file_size := f.size,
                 processed_at := now, logs_count := pr.2 }
        else σ.meta k }
  match σ.meta mk with
  | some m => if f.mtime ≤ m.processed_at then σ else body
  | none => body

/-!
### The file-scan fallback's metadata extraction
(`read_logs_with_filters`, `src/log_api.py` lines 559–585)

These fields are computed at QUERY time by the brute-force path; the claim-C8
record fields `step_number`, `duration_seconds`, `step_status` exist only
here, not in the stored record.
-/

/-- Position matcher for `step\s*(\d+)(?:/8)?` (case-insensitive, line 563);
the capture becomes `int(...)`. -/
def matchStep8At (l : List Char) : Option Nat := do
  let r ← matchCi l ("step".data)
  let (ds, _) ← takeDigits1 (r.dropWhile isSpaceChar)
  pure (digitsToNat ds)

/-- Position matcher for `(?:in\s+)?(\d+\.?\d*)\s*seconds?` (case-insensitive,
line 573); the capture (kept as its text; Python converts with `float`) is
the number before `second(s)`. -/
def matchDurationAt (l : List Char) : Option String :=
  match durCore ((matchCi l ("in".data)).bind (fun r =>
      let r2 := r.dropWhile isSpaceChar
      if r2.length < r.length then some r2 else none)) with
  | some d => some d
  | none => durCore (some l)
where
  durCore : Option (List Char) → Option String
    | some r => do
      let (ds, r1) ← takeDigits1 r
      let (frac, r2) := match matchLit r1 ['.'] with
        | some r1' =>
          let fs := r1'.takeWhile isDigitChar
          (['.'] ++ fs, r1'.drop fs.length)
        | none => ([], r1)
      let r3 := r2.dropWhile isSpaceChar
      let _ ← matchCi r3 ("second".data)
      pure (String.mk (ds ++ frac))
    | none => none

/-- Position matcher for `step\s*\d+/8:` (case-insensitive, line 582), used
by the `started` status detection. -/
def matchStatusStepAt (l : List Char) : Option Unit := do
  let r ← matchCi l ("step".data)
  let (_, r1) ← takeDigits1 (r.dropWhile isSpaceChar)
  let _ ← matchLit r1 ['/', '8', ':']
  pure ()

/-- The enhanced-metadata record computed at lines 559–585. -/
structure ReadMeta where
  step_number : Option Nat
  refresh_id : Option String
  duration_seconds : Option String
  step_status : Option String
deriving DecidableEq, Repr

/-- Lines 559–585 of `read_logs_with_filters`: step number, `Refresh-`-
prefixed refresh id, duration text, and the completion-status detection. -/
def readMetaOf (line : String) : ReadMeta :=
  let low := lowerStr line
  { step_number := scanFirst matchStep8At line.data,
    refresh_id := (scanFirst matchRefreshAt line.data).map (fun d => "Refresh-" ++ d),
    duration_seconds := scanFirst matchDurationAt line.data,
    step_status :=
      if strContains low "completed successfully" then some "completed"
      else if strContains low "failed" then some "failed"
      else if (scanFirst matchStatusStepAt line.data).isSome &&
          !(strContains low "completed") then some "started"
      else if strContains low "starting.*workflow" then some "workflow_started"
      else none }

/-!
### Concrete query instances used by the theorems below
-/

/-- The two-set store used to exhibit the wildcard-merge ordering violation:
two components of the same application, one holding an older entry than the
other. -/
def c1Store : QStore :=
  { sets := [("logs:ssdev:appA:c1", [{ ts := 10, msg := "old" }]),
             ("logs:ssdev:appA:c2", [{ ts := 20, msg := "new" }])],
    cache := [] }

/-- A wildcard query over that store: `app` given, `component` absent. -/
def c1Params : QParams :=
  { host := "ssdev", app := some "appA", component := none, level := none,
    refresh_id := none, step := none, startTime := none, endTime := none,
    search := none, limit := 5, offset := 0 }

/-- A direct (non-wildcard) query: both `app` and `component` given. -/
def c1DirectParams : QParams :=
  { host := "ssdev", app := some "appA", component := some "c1", level := none,
    refresh_id := none, step := none, startTime := none, endTime := none,
    search := none, limit := 5, offset := 0 }

/-- A level-filtered query with `refresh_id = "1"`. -/
def c4ParamsA : QParams :=
  { host := "ssdev", app := some "sports-scheduler",
    component := some "iptv-orchestrator", level := some "ERROR",
    refresh_id := some "1", step := none, startTime := none, endTime := none,
    search := none, limit := 100, offset := 0 }

/-- The same query as `c4ParamsA` with `refresh_id = "2"` instead. -/
def c4ParamsB : QParams :=
  { c4ParamsA with refresh_id := some "2" }

/-- A level-filtered direct query used for the C10 witness. -/
def c10Base : QParams :=
  { host := "ssdev", app := some "appA", component := some "c1",
    level := some "ERROR", refresh_id := none, step := none,
    startTime := none, endTime := none, search := none, limit := 5, offset := 0 }

/-- A plain (non-structured) entry carrying a legacy refresh tag, used for
the C5 failure-sequencing counterexample. -/
def c5Entry : Entry :=
  { timestamp := "2025-06-17T14:30:45-07:00", level := "INFO", message := "m",
    file_path := "/f", line_number := 0, refresh_id := some "7", step := none,
    step_name := none, indexed_at := "t" }

/-- The operation trace for `c5Entry` (score function constantly 0). -/
def c5Ops : List WOp :=
  storeOps (fun _ => 0) 86400 c5Entry "ssdev" "sports-scheduler" "general"

/-- A failure pattern: exactly the primary-set `ZADD` raises. -/
def c5Fail : WOp → Bool :=
  fun op =>
    decide (op = WOp.zadd (primaryKeyW "ssdev" "sports-scheduler" "general") c5Entry 0)

/-- The example log line of the claim-C8 scenario. -/
def c8Line : String :=
  "2025-06-17T14:30:45-07:00 Step 2/8: Refreshing Xtream channels completed successfully in 4.23 seconds"

/-- The structured per-step file path of the scenario (`file tagged
[Refresh-15]` → the refresh-15 directory of the structured layout, whose
directory name is the numeric id, cf. the path format comment at line 211). -/
def c8Parts : List String :=
  ["/", "var", "log", "centralized", "ssdev", "sports-scheduler",
   "iptv-orchestrator", "15", "step2-refresh_channels.log"]

/-- The stored record produced by `_parse_log_line` for the scenario. -/
def c8Entry : Entry := parseLogLine c8Line c8Parts 0 "NOW"

/-- A small concrete file for the C9 witness. -/
def c9File : FileRec :=
  { parts := ["/", "var", "log", "centralized", "ssdev", "f.log"],
    size := 10, mtime := 3, lines := ["hello"] }

/-- The empty processor store. -/
def emptyP : PStore := { w := emptyW, meta := fun _ => none }

/-- The `i`-th record of the C2 counterexample run: identical except for the
line number, all carrying legacy `refresh_id = "7"` and `step = "2"`. -/
def c2Entry (i : Nat) : Entry :=
  { timestamp := "t", level := "INFO", message := "m", file_path := "/f",
    line_number := i, refresh_id := some "7", step := some "2",
    step_name := none, indexed_at := "x" }

/-- The indexing call for the `i`-th record. -/
def c2Call (i : Nat) : SCall :=
  { e := c2Entry i, host := "ssdev", app := "sports-scheduler", comp := "general" }

/-- A run of `n` such records. -/
def c2Calls (n : Nat) : List SCall := (List.range n).map c2Call

/-- The legacy flat refresh key all those records share. -/
def c2LegacyKey : String := legacyRefreshKeyW "ssdev" "sports-scheduler" "general" "7"

/-! ### Theorems for claim C7 -/

/-- C7 counterexample: parsing `last 2 hours` does NOT yield the 2-hour window
`(now - 7200, now)` the claim requires.  `src/log_api.py` returns a fixed
1-hour window (the `n` is ignored), and the simplified parser in
`src/server/redis_log_api.py` does not recognise the phrase at all (its guard
is the literal substring `last hour`). -/
theorem C7_counterexample :
    parseTimeFilterApi (fun _ => none) 1000000 "last 2 hours" ≠ some (1000000 - 7200, 1000000) ∧
    parseTimeFilterApi (fun _ => none) 1000000 "last 2 hours" = some (1000000 - 3600, 1000000) ∧
    parseTimeFilterRedis 1000000 "last 2 hours" = (none, none) := by
  refine ⟨?_, ?_, ?_⟩ <;> decide

/-- C7 amended: any phrase containing `last` and `hour` (and neither
`yesterday` nor `today`) parses to a fixed ONE-hour window
`(now - 1 hour, now)` regardless of the count `n` in `last <n> hour(s)`;
the simplified Redis-side parser recognises only the literal phrase
`last hour`, likewise producing a 1-hour window. -/
theorem C7_amended (fromIso : String → Option Int) (now : Int) (s : String)
    (hne : s ≠ "")
    (hlast : strContains (lowerStr s) "last" = true)
    (hhour : strContains (lowerStr s) "hour" = true)
    (hyest : strContains (lowerStr s) "yesterday" = false)
    (htoday : strContains (lowerStr s) "today" = false) :
    parseTimeFilterApi fromIso now s = some (now - 3600, now) ∧
    (∀ s' : String, s' ≠ "" → strContains (lowerStr s') "last hour" = true →
      parseTimeFilterRedis now s' = (some (now - 3600), some now)) := by
  constructor
  · unfold parseTimeFilterApi
    simp [hne, hlast, hhour, hyest, htoday]
  · intro s' hne' h'
    unfold parseTimeFilterRedis
    simp [hne', h']

/-- C7 amended, witness: the amended theorem applied to the concrete phrase
`last 5 hours` at `now = 0`. -/
theorem C7_amended_witness :
    parseTimeFilterApi (fun _ => none) 0 "last 5 hours" = some (0 - 3600, 0) ∧
    (∀ s' : String, s' ≠ "" → strContains (lowerStr s') "last hour" = true →
      parseTimeFilterRedis 0 s' = (some (0 - 3600), some 0)) :=
  C7_amended (fun _ => none) 0 "last 5 hours" (by decide) (by decide) (by decide)
    (by decide) (by decide)

/-! ### Theorems for claim C1 -/

/-- C1 counterexample: a wildcard query whose results are merged from two
index sets returns the logs in the order the sets were scanned — here
timestamps `[10, 20]`, which is NOT non-increasing.  The per-set slices are
newest-first, but `_get_wildcard_logs_from_sorted_sets` concatenates them
without a global re-sort (its line 229 comment notwithstanding). -/
theorem C1_counterexample :
    ¬ List.Pairwise (fun x y : EnLog => y.entry.ts ≤ x.entry.ts)
      ((getLogs c1Params c1Store).1.logs) := by
  decide

/-- Every `ZREVRANGEBYSCORE` result is sorted newest-first. -/
theorem zrev_sorted (l : List QEntry) (endS : Option Int) (startS : Int)
    (offset num : Nat) :
    List.Pairwise descTs (zrevrangebyscore l endS startS offset num) := by
  unfold zrevrangebyscore
  exact ((List.sorted_insertionSort descTs _).sublist
    ((List.take_sublist _ _).trans (List.drop_sublist _ _)))

/-- Filtering and enriching a newest-first entry list keeps it newest-first. -/
theorem enrich_keeps_sorted (h0 : String) (a0 c0 : Option String)
    (f : QEntry → Bool) (l : List QEntry) (h : List.Pairwise descTs l) :
    List.Pairwise (fun x y : EnLog => y.entry.ts ≤ x.entry.ts)
      ((l.filter f).map (enrichEntry h0 a0 c0)) :=
  (h.sublist (List.filter_sublist l)).map _ (fun _ _ hab => hab)

/-- C1 amended: for a non-wildcard query — both `app` and `component` given,
with any `level`/`refresh_id`/`step` filter — a cache-missing `get_logs`
response is ordered by event timestamp newest-first (each of the two
single-set branches reads one `ZREVRANGEBYSCORE` range).  Wildcard queries
only guarantee this per underlying set, not for the merged response. -/
theorem C1_amended (p : QParams) (σ : QStore) (a c : String)
    (ha : p.app = some a) (hc : p.component = some c)
    (hmiss : σ.cache.lookup ("cache:" ++ cacheKeyOf p) = none) :
    List.Pairwise (fun x y : EnLog => y.entry.ts ≤ x.entry.ts)
      ((getLogs p σ).1.logs) := by
  simp only [getLogs, hmiss]
  split
  · rename_i hcond
    rw [ha, hc] at hcond
    simp at hcond
  · split
    · exact enrich_keeps_sorted _ _ _ _ _ (zrev_sorted _ _ _ _ _)
    · exact enrich_keeps_sorted _ _ _ _ _ (zrev_sorted _ _ _ _ _)

/-- C1 amended, witness: the amended theorem at a concrete direct query. -/
theorem C1_amended_witness :
    List.Pairwise (fun x y : EnLog => y.entry.ts ≤ x.entry.ts)
      ((getLogs c1DirectParams c1Store).1.logs) :=
  C1_amended c1DirectParams c1Store "appA" "c1" rfl rfl (by decide)

/-! ### Theorems for claim C4 -/

/-- C4 counterexample: two queries that differ only in `refresh_id` — with a
`level` filter also present — produce the SAME cache key, because
`_generate_cache_key` hashes the resolved `query_key`, and `get_logs`
(lines 55–61) encodes only the highest-precedence filter (`level`) into it. -/
theorem C4_counterexample :
    c4ParamsA ≠ c4ParamsB ∧ c4ParamsA.refresh_id ≠ c4ParamsB.refresh_id ∧
    cacheKeyOf c4ParamsA = cacheKeyOf c4ParamsB := by
  exact ⟨by decide, by decide, rfl⟩

/-- C4 amended: the cache key is a hash of the RESOLVED query key (which
encodes only the highest-precedence of `level` > `refresh_id` > `step`),
the time bounds, `limit`, `offset` and the normalised search text; hence two
queries that differ only in `refresh_id` or `step` while `level` is set share
one cache entry, and re-issuing the identical query against the store the
first call produced returns the identical cached result with no further
store change. -/
theorem C4_amended (p : QParams) (l : String) (hl : p.level = some l)
    (r1 s1 r2 s2 : Option String) (σ : QStore) :
    cacheKeyOf { p with refresh_id := r1, step := s1 } =
      cacheKeyOf { p with refresh_id := r2, step := s2 } ∧
    getLogs p (getLogs p σ).2 = getLogs p σ := by
  constructor
  · cases p
    simp only at hl
    subst hl
    rfl
  · rcases h : σ.cache.lookup ("cache:" ++ cacheKeyOf p) with _ | r
    · simp only [getLogs, h, List.lookup, beq_self_eq_true]
    · simp only [getLogs, h]

/-- C4 amended, witness: the amended theorem at a concrete level-filtered
query and the empty store. -/
theorem C4_amended_witness :
    cacheKeyOf { c4ParamsA with refresh_id := some "1", step := none } =
      cacheKeyOf { c4ParamsA with refresh_id := some "2", step := some "3" } ∧
    getLogs c4ParamsA (getLogs c4ParamsA ⟨[], []⟩).2 = getLogs c4ParamsA ⟨[], []⟩ :=
  C4_amended c4ParamsA "ERROR" rfl (some "1") none (some "2") (some "3") ⟨[], []⟩

/-! ### Theorems for claim C10 -/

/-- C10: in `get_logs`, when a `level` filter is supplied together with `app`
and `component`, the `refresh_id` and `step` arguments have no effect on the
result or on the cache entry used: the resolved query key takes the `level`
branch of the `level`/`refresh_id`/`step` chain and nothing else in the
function reads those two arguments. -/
theorem C10_level_shadows (p : QParams) (l a c : String)
    (r1 s1 r2 s2 : Option String) (σ : QStore)
    (hl : p.level = some l) (ha : p.app = some a) (hc : p.component = some c) :
    getLogs { p with refresh_id := r1, step := s1 } σ =
      getLogs { p with refresh_id := r2, step := s2 } σ := by
  cases p
  simp only at hl ha hc
  subst hl ha hc
  rfl

/-- C10 witness: the theorem at two concrete queries differing in both
`refresh_id` and `step`. -/
theorem C10_level_shadows_witness :
    getLogs { c10Base with refresh_id := some "7", step := some "1" } c1Store =
      getLogs { c10Base with refresh_id := some "8", step := some "2" } c1Store :=
  C10_level_shadows c10Base "ERROR" "appA" "c1" (some "7") (some "1") (some "8")
    (some "2") c1Store rfl rfl rfl

/-! ### Theorems for claim C6 -/

/-- C6 counterexample: with the backing store unavailable, the query route
returns the structured error payload with an `error` field and an empty
`logs` list — but with HTTP status 200, not the non-200 status the claim
requires (both `jsonify` calls in the route omit a status code). -/
theorem C6_counterexample :
    ((getHostLogsRedis false true "Connection refused" c1Params c1Store).1).2 = 200 ∧
    ((getHostLogsRedis false true "Connection refused" c1Params c1Store).1).1.error.isSome = true ∧
    ((getHostLogsRedis false true "Connection refused" c1Params c1Store).1).1.logs = [] := by
  exact ⟨rfl, rfl, rfl⟩

/-- C6 amended: whenever the backing store is unavailable (the cache `GET`
before the `try` raises) or a store operation raises inside the `try` during
a cache-missing query, the HTTP query path returns a structured JSON payload
with an `error` field and an empty `logs` list — with HTTP status 200. -/
theorem C6_amended (p : QParams) (σ : QStore) (msg : String)
    (hmiss : σ.cache.lookup ("cache:" ++ cacheKeyOf p) = none) :
    (((getHostLogsRedis false true msg p σ).1).2 = 200 ∧
      ((getHostLogsRedis false true msg p σ).1).1.error =
        some ("Error in get_host_logs_redis: " ++ msg) ∧
      ((getHostLogsRedis false true msg p σ).1).1.logs = []) ∧
    (((getHostLogsRedis true false msg p σ).1).2 = 200 ∧
      ((getHostLogsRedis true false msg p σ).1).1.error = some msg ∧
      ((getHostLogsRedis true false msg p σ).1).1.logs = []) := by
  refine ⟨⟨rfl, rfl, rfl⟩, ?_⟩
  simp only [getHostLogsRedis, getLogsPy, hmiss]
  exact ⟨rfl, rfl, rfl⟩

/-- C6 amended, witness: both failure modes at a concrete query and store. -/
theorem C6_amended_witness :
    ((((getHostLogsRedis false true "down" c1Params c1Store).1).2 = 200 ∧
      (((getHostLogsRedis false true "down" c1Params c1Store).1).1).error =
        some ("Error in get_host_logs_redis: " ++ "down") ∧
      (((getHostLogsRedis false true "down" c1Params c1Store).1).1).logs = []) ∧
     (((getHostLogsRedis true false "down" c1Params c1Store).1).2 = 200 ∧
      (((getHostLogsRedis true false "down" c1Params c1Store).1).1).error = some "down" ∧
      (((getHostLogsRedis true false "down" c1Params c1Store).1).1).logs = [])) :=
  C6_amended c1Params c1Store "down" (by decide)

/-! ### Theorems for claim C5 -/

/-- Sequential failure semantics: the attempted operations are exactly the
prefix up to and including the first failing one. -/
theorem runFail_eq_take (fail : WOp → Bool) (l : List WOp) :
    runFail fail l = l.take (attemptCount fail l) := by
  induction l with
  | nil => rfl
  | cons op rest ih =>
    by_cases h : fail op = true
    · simp [runFail, attemptCount, h]
    · simp only [Bool.not_eq_true] at h
      simp [runFail, attemptCount, h, ih]

/-- When nothing fails, every operation is attempted. -/
theorem attemptCount_all_ok (fail : WOp → Bool) (l : List WOp)
    (h : ∀ op ∈ l, fail op = false) : attemptCount fail l = l.length := by
  induction l with
  | nil => rfl
  | cons op rest ih =>
    simp [attemptCount, h op (by simp), ih (fun o ho => h o (by simp [ho]))]

/-- C5 counterexample: `_store_log_entry` has no per-write error handling.
With a failure pattern in which the primary-set `ZADD` (the FIRST write for
this non-structured record) raises, the level-set write, the legacy
refresh-set write and the statistics counters are all in the record's
operation trace but none of them is attempted — contradicting the claim that
every write is attempted even if an earlier one fails. -/
theorem C5_counterexample :
    c5Fail (WOp.zadd (primaryKeyW "ssdev" "sports-scheduler" "general") c5Entry 0) = true ∧
    WOp.zadd (primaryKeyW "ssdev" "sports-scheduler" "general") c5Entry 0 ∈ c5Ops ∧
    WOp.zadd (levelKeyW "ssdev" "sports-scheduler" "general" "INFO") c5Entry 0 ∈ c5Ops ∧
    WOp.zadd (legacyRefreshKeyW "ssdev" "sports-scheduler" "general" "7") c5Entry 0 ∈ c5Ops ∧
    WOp.hincrby (statsKeyW "ssdev" "sports-scheduler") "total_logs" 1 ∈ c5Ops ∧
    WOp.zadd (levelKeyW "ssdev" "sports-scheduler" "general" "INFO") c5Entry 0 ∉
      runFail c5Fail c5Ops ∧
    WOp.zadd (legacyRefreshKeyW "ssdev" "sports-scheduler" "general" "7") c5Entry 0 ∉
      runFail c5Fail c5Ops ∧
    WOp.hincrby (statsKeyW "ssdev" "sports-scheduler") "total_logs" 1 ∉
      runFail c5Fail c5Ops := by
  decide

/-- C5 amended: the writes of `_store_log_entry` are issued strictly in
sequence with no per-write error handling, so a failing write aborts all
remaining writes for that record: the attempted operations are exactly the
trace prefix up to and including the first failing operation (the exception
is then caught at per-file scope in `_process_file_task`), and only when no
write fails is every write attempted. -/
theorem C5_amended (epochOf : String → Int) (ttl : Int) (e : Entry)
    (host app comp : String) (fail : WOp → Bool) :
    runFail fail (storeOps epochOf ttl e host app comp) =
      (storeOps epochOf ttl e host app comp).take
        (attemptCount fail (storeOps epochOf ttl e host app comp)) ∧
    ((∀ op ∈ storeOps epochOf ttl e host app comp, fail op = false) →
      runFail fail (storeOps epochOf ttl e host app comp) =
        storeOps epochOf ttl e host app comp) := by
  refine ⟨runFail_eq_take _ _, fun h => ?_⟩
  rw [runFail_eq_take, attemptCount_all_ok _ _ h, List.take_length]

/-- C5 amended, witness: with no failing operation, the whole trace of the
concrete record is attempted. -/
theorem C5_amended_witness : runFail (fun _ => false) c5Ops = c5Ops :=
  (C5_amended (fun _ => 0) 86400 c5Entry "ssdev" "sports-scheduler" "general"
    (fun _ => false)).2 (fun _ _ => rfl)

/-! ### Theorems for claim C9 -/

/-- C9: processing the same unmodified file twice (same path, size and mtime,
hence the same fingerprint) leaves the store of the first pass unchanged: the
second pass finds the cursor written by the first pass (or the one that
already short-circuited it) with `processed_at ≥ mtime` and drops the task
before any index write.  The hypothesis says the file was last modified
before the first pass finished (`datetime.now()` of pass 1). -/
theorem C9_idempotent (epochOf : String → Int) (ttl : Int)
    (maxFileSize maxLines : Nat) (now1 now2 : Int) (n1 n2 : String)
    (host : String) (f : FileRec) (σ : PStore) (h : f.mtime ≤ now1) :
    processFileTask epochOf ttl maxFileSize maxLines now2 n2 host f
        (processFileTask epochOf ttl maxFileSize maxLines now1 n1 host f σ) =
      processFileTask epochOf ttl maxFileSize maxLines now1 n1 host f σ := by
  rcases hm : σ.meta (metaKeyW host (fileHash f)) with _ | m
  · simp only [processFileTask, hm]
    simp [h]
  · by_cases hp : f.mtime ≤ m.processed_at
    · simp only [processFileTask, hm]
      simp [hp, hm]
    · simp only [processFileTask, hm]
      simp [hp, h]

/-- C9 witness: the theorem at a concrete file (mtime 3) processed at times
5 and then 7 from the empty store. -/
theorem C9_idempotent_witness :
    c9File.mtime ≤ (5 : Int) ∧
    processFileTask (fun _ => 0) 86400 100 100 7 "n2" "ssdev" c9File
        (processFileTask (fun _ => 0) 86400 100 100 5 "n1" "ssdev" c9File emptyP) =
      processFileTask (fun _ => 0) 86400 100 100 5 "n1" "ssdev" c9File emptyP :=
  ⟨by decide,
   C9_idempotent (fun _ => 0) 86400 100 100 5 7 "n1" "n2" "ssdev" c9File emptyP
     (by decide)⟩

/-! ### Store-evolution lemmas shared by claims C2 and C3 -/

/-- `applyOps` distributes over list append. -/
theorem applyOps_append (σ : WStore) (l1 l2 : List WOp) :
    applyOps σ (l1 ++ l2) = applyOps (applyOps σ l1) l2 := by
  simp [applyOps, List.foldl_append]

/-- A `ZADD` always leaves its member in the set. -/
theorem zaddList_mem_self (e : Entry) (s : Int) (l : List (Entry × Int)) :
    memberZ e (zaddList e s l) := by
  unfold zaddList
  split
  · rename_i h
    rw [List.any_eq_true] at h
    obtain ⟨p, hp, hpe⟩ := h
    rw [decide_eq_true_eq] at hpe
    exact ⟨s, List.mem_map.mpr ⟨p, hp, by simp [hpe]⟩⟩
  · exact ⟨s, List.mem_cons_self _ _⟩

/-- A `ZADD` of any member preserves membership of every member. -/
theorem zaddList_mem_mono (e e' : Entry) (s : Int) (l : List (Entry × Int))
    (h : memberZ e l) : memberZ e (zaddList e' s l) := by
  obtain ⟨s0, h0⟩ := h
  unfold zaddList
  split
  · by_cases he : e = e'
    · subst he
      exact ⟨s, List.mem_map.mpr ⟨(e, s0), h0, by simp⟩⟩
    · exact ⟨s0, List.mem_map.mpr ⟨(e, s0), h0, by simp [he]⟩⟩
  · exact ⟨s0, List.mem_cons_of_mem _ h0⟩

/-- A `ZADD` grows a set by at most one member. -/
theorem zaddList_length_le (e : Entry) (s : Int) (l : List (Entry × Int)) :
    (zaddList e s l).length ≤ l.length + 1 := by
  unfold zaddList
  split
  · simp
  · simp

/-- The trim keeps at most `keep` members. -/
theorem trimTop_length_le (keep : Nat) (l : List (Entry × Int)) :
    (trimTop keep l).length ≤ keep := by
  unfold trimTop
  exact List.length_take_le _ _

/-- A trim with room (the set not over the cap) evicts nothing. -/
theorem trimTop_mem_of_le (keep : Nat) (l : List (Entry × Int))
    (h : l.length ≤ keep) (e : Entry) (hm : memberZ e l) :
    memberZ e (trimTop keep l) := by
  obtain ⟨s, hs⟩ := hm
  unfold trimTop
  have hp := List.perm_insertionSort descScore l
  rw [List.take_of_length_le (by rw [hp.length_eq]; exact h)]
  exact ⟨s, hp.mem_iff.mpr hs⟩

/-- The effect of one `zadd; expire; zrem` block on its own key. -/
theorem seg3_at (σ : WStore) (k : String) (e : Entry) (sc t : Int) (cap : Nat) :
    (applyOps σ [WOp.zadd k e sc, WOp.expire k t, WOp.zremKeepTop k cap]).zsets k =
      trimTop cap (zaddList e sc (σ.zsets k)) := by
  simp [applyOps, List.foldl, applyOp, updZ]

/-- A `zadd; expire; zrem` block on a different key leaves a set unchanged. -/
theorem seg3_ne (σ : WStore) (k k' : String) (e : Entry) (sc t : Int) (cap : Nat)
    (h : k ≠ k') :
    (applyOps σ [WOp.zadd k' e sc, WOp.expire k' t, WOp.zremKeepTop k' cap]).zsets k =
      σ.zsets k := by
  simp [applyOps, List.foldl, applyOp, updZ, h]

/-- The effect of an (untrimmed) `zadd; expire` block on its own key. -/
theorem seg2_at (σ : WStore) (k : String) (e : Entry) (sc t : Int) :
    (applyOps σ [WOp.zadd k e sc, WOp.expire k t]).zsets k =
      zaddList e sc (σ.zsets k) := by
  simp [applyOps, List.foldl, applyOp, updZ]

/-- A `zadd; expire` block on a different key leaves a set unchanged. -/
theorem seg2_ne (σ : WStore) (k k' : String) (e : Entry) (sc t : Int)
    (h : k ≠ k') :
    (applyOps σ [WOp.zadd k' e sc, WOp.expire k' t]).zsets k = σ.zsets k := by
  simp [applyOps, List.foldl, applyOp, updZ, h]

/-- The statistics segment does not touch any sorted set. -/
theorem statsSeg_zsets (σ : WStore) (e : Entry) (host app : String) (ttl : Int) :
    (applyOps σ (statsSeg e host app ttl)).zsets = σ.zsets := rfl

/-- Membership in a set survives any operation sequence containing no trim of
that set's key (a later `ZADD` can only re-add or re-score). -/
theorem memberZ_persist (e : Entry) (k : String) :
    ∀ (ops : List WOp) (σ : WStore), memberZ e (σ.zsets k) →
      (∀ keep, WOp.zremKeepTop k keep ∉ ops) →
      memberZ e ((applyOps σ ops).zsets k) := by
  intro ops
  induction ops with
  | nil => exact fun σ h _ => h
  | cons op rest ih =>
    intro σ h hno
    have hno' : ∀ keep, WOp.zremKeepTop k keep ∉ rest := fun keep hmem =>
      hno keep (List.mem_cons_of_mem _ hmem)
    have hstep : memberZ e ((applyOp σ op).zsets k) := by
      cases op with
      | zadd k' e' s =>
        by_cases hk : k = k'
        · subst hk
          simpa [applyOp, updZ] using zaddList_mem_mono e e' s _ h
        · simpa [applyOp, updZ, hk] using h
      | expire k' t => exact h
      | zremKeepTop k' keep =>
        have hkk : k ≠ k' := fun hkk =>
          hno keep (by rw [hkk]; exact List.mem_cons_self _ _)
        simpa [applyOp, updZ, hkk] using h
      | hincrby k' f n => exact h
    exact ih _ hstep hno'

/-! ### Theorems for claim C3 -/

/-- A record whose `step_name` is present was parsed from a structured
IPTV-orchestrator path, so the path classifier assigns it the
`iptv-orchestrator` component. -/
theorem stepname_iptv (line : String) (parts : List String) (ln : Nat) (nw : String)
    (h : truthy (parseLogLine line parts ln nw).step_name = true) :
    extractComponentName parts = "iptv-orchestrator" := by
  by_cases hc : "iptv-orchestrator" ∈ parts
  · simp [extractComponentName, hc]
  · exfalso
    have hnone : (parseLogLine line parts ln nw).step_name = none := by
      simp [parseLogLine, extractRefreshIdAndStep, hc]
    rw [hnone] at h
    simp [truthy] at h

/-- When the path supplies a truthy `step_name`, the legacy message-derived
`step` field is `None`. -/
theorem step_none_of_stepname (line : String) (parts : List String) (ln : Nat)
    (nw : String) (h : truthy (parseLogLine line parts ln nw).step_name = true) :
    (parseLogLine line parts ln nw).step = none := by
  have h2 : truthy (extractRefreshIdAndStep parts).2 = true := by
    simpa [parseLogLine] using h
  simp [parseLogLine, h2]

/-- The split of the structured + core trace into five zadd/expire/trim
blocks. -/
theorem struct_core_split (E : Entry) (host app comp : String) (sc ttl : Int) :
    structSeg E host app comp sc ttl ++ coreSeg E host app comp sc ttl =
      [WOp.zadd (stepKeyOfE E host app comp) E sc,
       WOp.expire (stepKeyOfE E host app comp) ttl,
       WOp.zremKeepTop (stepKeyOfE E host app comp) 1000] ++
      ([WOp.zadd (aggKeyOfE E host app comp) E sc,
        WOp.expire (aggKeyOfE E host app comp) ttl,
        WOp.zremKeepTop (aggKeyOfE E host app comp) 5000] ++
      ([WOp.zadd (stepLevelKeyOfE E host app comp) E sc,
        WOp.expire (stepLevelKeyOfE E host app comp) ttl,
        WOp.zremKeepTop (stepLevelKeyOfE E host app comp) 500] ++
      ([WOp.zadd (primaryKeyW host app comp) E sc,
        WOp.expire (primaryKeyW host app comp) ttl,
        WOp.zremKeepTop (primaryKeyW host app comp) 10000] ++
       [WOp.zadd (levelKeyOfE E host app comp) E sc,
        WOp.expire (levelKeyOfE E host app comp) ttl,
        WOp.zremKeepTop (levelKeyOfE E host app comp) 1000]))) := rfl

/-- C3: a record parsed with both a (truthy) `refresh_id` and `step_name` —
necessarily a structured IPTV-orchestrator record, since `step_name` only
comes from such a path — is written into the step-scoped set, the
refresh-aggregate set, the primary set AND the level set, and is present in
all four after the call whenever each of those sets has room under its cap
and the five trimmed keys of the call are pairwise distinct (so one set's
trim cannot evict another's fresh write). -/
theorem C3_fanout (epochOf : String → Int) (ttl : Int) (line : String)
    (parts : List String) (ln : Nat) (nowIso host app : String)
    (e : Entry) (he : e = parseLogLine line parts ln nowIso)
    (comp : String) (hcomp : comp = extractComponentName parts)
    (hr : truthy e.refresh_id = true) (hs : truthy e.step_name = true)
    (σ : WStore)
    (room1 : (σ.zsets (stepKeyOfE e host app comp)).length < 1000)
    (room2 : (σ.zsets (aggKeyOfE e host app comp)).length < 5000)
    (room3 : (σ.zsets (primaryKeyW host app comp)).length < 10000)
    (room4 : (σ.zsets (levelKeyOfE e host app comp)).length < 1000)
    (d12 : stepKeyOfE e host app comp ≠ aggKeyOfE e host app comp)
    (d13 : stepKeyOfE e host app comp ≠ primaryKeyW host app comp)
    (d14 : stepKeyOfE e host app comp ≠ levelKeyOfE e host app comp)
    (d15 : stepKeyOfE e host app comp ≠ stepLevelKeyOfE e host app comp)
    (d23 : aggKeyOfE e host app comp ≠ primaryKeyW host app comp)
    (d24 : aggKeyOfE e host app comp ≠ levelKeyOfE e host app comp)
    (d25 : aggKeyOfE e host app comp ≠ stepLevelKeyOfE e host app comp)
    (d34 : primaryKeyW host app comp ≠ levelKeyOfE e host app comp)
    (d35 : primaryKeyW host app comp ≠ stepLevelKeyOfE e host app comp)
    (d45 : levelKeyOfE e host app comp ≠ stepLevelKeyOfE e host app comp) :
    memberZ e ((storeStep epochOf ttl e host app comp σ).zsets
      (stepKeyOfE e host app comp)) ∧
    memberZ e ((storeStep epochOf ttl e host app comp σ).zsets
      (aggKeyOfE e host app comp)) ∧
    memberZ e ((storeStep epochOf ttl e host app comp σ).zsets
      (primaryKeyW host app comp)) ∧
    memberZ e ((storeStep epochOf ttl e host app comp σ).zsets
      (levelKeyOfE e host app comp)) := by
  have hiptv : comp = "iptv-orchestrator" := by
    rw [hcomp]
    exact stepname_iptv line parts ln nowIso (he ▸ hs)
  have hstp : e.step = none := by
    rw [he]
    exact step_none_of_stepname line parts ln nowIso (he ▸ hs)
  have hcond : (comp = "iptv-orchestrator" && truthy e.refresh_id &&
      truthy e.step_name) = true := by
    simp [hiptv, hr, hs]
  have hops : storeOps epochOf ttl e host app comp =
      (structSeg e host app comp (epochOf e.timestamp) ttl ++
        coreSeg e host app comp (epochOf e.timestamp) ttl) ++
      (legacyRSeg e host app comp (epochOf e.timestamp) ttl ++
        statsSeg e host app ttl) := by
    rw [storeOps, hcond, hr, hstp]
    simp [truthy]
  have hnotrim : ∀ kk, (∀ keep, WOp.zremKeepTop kk keep ∉
      legacyRSeg e host app comp (epochOf e.timestamp) ttl ++
        statsSeg e host app ttl) := by
    intro kk keep
    simp [legacyRSeg, statsSeg]
  unfold storeStep
  rw [hops, applyOps_append]
  have hmid := struct_core_split e host app comp (epochOf e.timestamp) ttl
  refine ⟨?_, ?_, ?_, ?_⟩
  all_goals
    refine memberZ_persist _ _ _ _ ?_ (hnotrim _)
  · rw [hmid, applyOps_append, applyOps_append, applyOps_append, applyOps_append]
    rw [seg3_ne _ _ _ _ _ _ _ d14, seg3_ne _ _ _ _ _ _ _ d13,
        seg3_ne _ _ _ _ _ _ _ d15, seg3_ne _ _ _ _ _ _ _ d12, seg3_at]
    refine trimTop_mem_of_le _ _ ?_ _ (zaddList_mem_self _ _ _)
    calc (zaddList e (epochOf e.timestamp) (σ.zsets (stepKeyOfE e host app comp))).length
        ≤ (σ.zsets (stepKeyOfE e host app comp)).length + 1 := zaddList_length_le _ _ _
      _ ≤ 1000 := by omega
  · rw [hmid, applyOps_append, applyOps_append, applyOps_append, applyOps_append]
    rw [seg3_ne _ _ _ _ _ _ _ d24, seg3_ne _ _ _ _ _ _ _ d23,
        seg3_ne _ _ _ _ _ _ _ d25, seg3_at,
        seg3_ne _ _ _ _ _ _ _ (Ne.symm d12)]
    refine trimTop_mem_of_le _ _ ?_ _ (zaddList_mem_self _ _ _)
    calc (zaddList e (epochOf e.timestamp) (σ.zsets (aggKeyOfE e host app comp))).length
        ≤ (σ.zsets (aggKeyOfE e host app comp)).length + 1 := zaddList_length_le _ _ _
      _ ≤ 5000 := by omega
  · rw [hmid, applyOps_append, applyOps_append, applyOps_append, applyOps_append]
    rw [seg3_ne _ _ _ _ _ _ _ d34, seg3_at,
        seg3_ne _ _ _ _ _ _ _ d35, seg3_ne _ _ _ _ _ _ _ (Ne.symm d23),
        seg3_ne _ _ _ _ _ _ _ (Ne.symm d13)]
    refine trimTop_mem_of_le _ _ ?_ _ (zaddList_mem_self _ _ _)
    calc (zaddList e (epochOf e.timestamp) (σ.zsets (primaryKeyW host app comp))).length
        ≤ (σ.zsets (primaryKeyW host app comp)).length + 1 := zaddList_length_le _ _ _
      _ ≤ 10000 := by omega
  · rw [hmid, applyOps_append, applyOps_append, applyOps_append, applyOps_append]
    rw [seg3_at, seg3_ne _ _ _ _ _ _ _ (Ne.symm d34),
        seg3_ne _ _ _ _ _ _ _ d45, seg3_ne _ _ _ _ _ _ _ (Ne.symm d24),
        seg3_ne _ _ _ _ _ _ _ (Ne.symm d14)]
    refine trimTop_mem_of_le _ _ ?_ _ (zaddList_mem_self _ _ _)
    calc (zaddList e (epochOf e.timestamp) (σ.zsets (levelKeyOfE e host app comp))).length
        ≤ (σ.zsets (levelKeyOfE e host app comp)).length + 1 := zaddList_length_le _ _ _
      _ ≤ 1000 := by omega

/-- C3 witness: the fan-out theorem at the claim-C8 scenario record (refresh
"15", step `step2-refresh_channels`) stored into the empty store. -/
theorem C3_fanout_witness :
    memberZ c8Entry ((storeStep (fun _ => 0) 86400 c8Entry "ssdev"
        "sports-scheduler" "iptv-orchestrator" emptyW).zsets
      (stepKeyOfE c8Entry "ssdev" "sports-scheduler" "iptv-orchestrator")) ∧
    memberZ c8Entry ((storeStep (fun _ => 0) 86400 c8Entry "ssdev"
        "sports-scheduler" "iptv-orchestrator" emptyW).zsets
      (aggKeyOfE c8Entry "ssdev" "sports-scheduler" "iptv-orchestrator")) ∧
    memberZ c8Entry ((storeStep (fun _ => 0) 86400 c8Entry "ssdev"
        "sports-scheduler" "iptv-orchestrator" emptyW).zsets
      (primaryKeyW "ssdev" "sports-scheduler" "iptv-orchestrator")) ∧
    memberZ c8Entry ((storeStep (fun _ => 0) 86400 c8Entry "ssdev"
        "sports-scheduler" "iptv-orchestrator" emptyW).zsets
      (levelKeyOfE c8Entry "ssdev" "sports-scheduler" "iptv-orchestrator")) :=
  C3_fanout (fun _ => 0) 86400 c8Line c8Parts 0 "NOW" "ssdev" "sports-scheduler"
    c8Entry rfl "iptv-orchestrator" (by decide) (by decide) (by decide) emptyW
    (by decide) (by decide) (by decide) (by decide)
    (by decide) (by decide) (by decide) (by decide) (by decide)
    (by decide) (by decide) (by decide) (by decide) (by decide)

/-! ### Theorems for claim C2 -/

/-- A conditional segment that would not change a set also does not change it
under its guard. -/
theorem condSeg_zsets_skip (σ : WStore) (cond : Bool) (seg : List WOp) (k : String)
    (h : (applyOps σ seg).zsets k = σ.zsets k) :
    (applyOps σ (if cond then seg else [])).zsets k = σ.zsets k := by
  cases cond
  · rfl
  · exact h

/-- The legacy refresh segment leaves every other key unchanged. -/
theorem legacyRSeg_skip (σ : WStore) (E : Entry) (host app comp : String)
    (sc ttl : Int) (k : String) (h : k ≠ legacyRKeyOfE E host app comp) :
    (applyOps σ (legacyRSeg E host app comp sc ttl)).zsets k = σ.zsets k :=
  seg2_ne σ k _ E sc ttl h

/-- The legacy step segment leaves every other key unchanged. -/
theorem legacySSeg_skip (σ : WStore) (E : Entry) (host app comp : String)
    (sc ttl : Int) (k : String) (h : k ≠ legacySKeyOfE E host app comp) :
    (applyOps σ (legacySSeg E host app comp sc ttl)).zsets k = σ.zsets k :=
  seg2_ne σ k _ E sc ttl h

/-- The structured segment leaves every other key unchanged. -/
theorem structSeg_skip (σ : WStore) (E : Entry) (host app comp : String)
    (sc ttl : Int) (k : String)
    (h1 : k ≠ stepKeyOfE E host app comp) (h2 : k ≠ aggKeyOfE E host app comp)
    (h5 : k ≠ stepLevelKeyOfE E host app comp) :
    (applyOps σ (structSeg E host app comp sc ttl)).zsets k = σ.zsets k := by
  have hsp : structSeg E host app comp sc ttl =
      [WOp.zadd (stepKeyOfE E host app comp) E sc,
       WOp.expire (stepKeyOfE E host app comp) ttl,
       WOp.zremKeepTop (stepKeyOfE E host app comp) 1000] ++
      ([WOp.zadd (aggKeyOfE E host app comp) E sc,
        WOp.expire (aggKeyOfE E host app comp) ttl,
        WOp.zremKeepTop (aggKeyOfE E host app comp) 5000] ++
       [WOp.zadd (stepLevelKeyOfE E host app comp) E sc,
        WOp.expire (stepLevelKeyOfE E host app comp) ttl,
        WOp.zremKeepTop (stepLevelKeyOfE E host app comp) 500]) := rfl
  rw [hsp, applyOps_append, applyOps_append,
      seg3_ne _ _ _ _ _ _ _ h5, seg3_ne _ _ _ _ _ _ _ h2, seg3_ne _ _ _ _ _ _ _ h1]

/-- The split of the core segment into its two blocks. -/
theorem coreSeg_split (E : Entry) (host app comp : String) (sc ttl : Int) :
    coreSeg E host app comp sc ttl =
      [WOp.zadd (primaryKeyW host app comp) E sc,
       WOp.expire (primaryKeyW host app comp) ttl,
       WOp.zremKeepTop (primaryKeyW host app comp) 10000] ++
      [WOp.zadd (levelKeyOfE E host app comp) E sc,
       WOp.expire (levelKeyOfE E host app comp) ttl,
       WOp.zremKeepTop (levelKeyOfE E host app comp) 1000] := rfl

/-- The core segment leaves keys other than the primary and level keys
unchanged. -/
theorem coreSeg_skip (σ : WStore) (E : Entry) (host app comp : String)
    (sc ttl : Int) (k : String)
    (h3 : k ≠ primaryKeyW host app comp) (h4 : k ≠ levelKeyOfE E host app comp) :
    (applyOps σ (coreSeg E host app comp sc ttl)).zsets k = σ.zsets k := by
  rw [coreSeg_split, applyOps_append,
      seg3_ne _ _ _ _ _ _ _ h4, seg3_ne _ _ _ _ _ _ _ h3]

/-- The primary set after one call: zadd then trim to 10000, provided the two
keys of the core segment differ. -/
theorem coreSeg_primary (σ : WStore) (E : Entry) (host app comp : String)
    (sc ttl : Int) (h : primaryKeyW host app comp ≠ levelKeyOfE E host app comp) :
    (applyOps σ (coreSeg E host app comp sc ttl)).zsets (primaryKeyW host app comp) =
      trimTop 10000 (zaddList E sc (σ.zsets (primaryKeyW host app comp))) := by
  rw [coreSeg_split, applyOps_append, seg3_ne _ _ _ _ _ _ _ h, seg3_at]

/-- The level set after one call: zadd then trim to 1000. -/
theorem coreSeg_level (σ : WStore) (E : Entry) (host app comp : String)
    (sc ttl : Int) (h : levelKeyOfE E host app comp ≠ primaryKeyW host app comp) :
    (applyOps σ (coreSeg E host app comp sc ttl)).zsets (levelKeyOfE E host app comp) =
      trimTop 1000 (zaddList E sc (σ.zsets (levelKeyOfE E host app comp))) := by
  rw [coreSeg_split, applyOps_append, seg3_at,
      seg3_ne _ _ _ _ _ _ _ h]

/-- One indexing call keeps a key that only ever serves as a PRIMARY key (no
call uses it for any secondary/legacy set) at or under the 10000 cap. -/
theorem storeStep_len_primary (epochOf : String → Int) (ttl : Int) (E : Entry)
    (host app comp : String) (σ : WStore) (k : String)
    (h1 : stepKeyOfE E host app comp ≠ k) (h2 : aggKeyOfE E host app comp ≠ k)
    (h5 : stepLevelKeyOfE E host app comp ≠ k)
    (h4 : levelKeyOfE E host app comp ≠ k)
    (h6 : legacyRKeyOfE E host app comp ≠ k)
    (h7 : legacySKeyOfE E host app comp ≠ k)
    (hlen : (σ.zsets k).length ≤ 10000) :
    ((storeStep epochOf ttl E host app comp σ).zsets k).length ≤ 10000 := by
  unfold storeStep storeOps
  rw [applyOps_append, applyOps_append, applyOps_append, applyOps_append,
      statsSeg_zsets,
      condSeg_zsets_skip _ _ _ _ (legacySSeg_skip _ _ _ _ _ _ _ _ (Ne.symm h7)),
      condSeg_zsets_skip _ _ _ _ (legacyRSeg_skip _ _ _ _ _ _ _ _ (Ne.symm h6))]
  by_cases hk : primaryKeyW host app comp = k
  · subst hk
    rw [coreSeg_primary _ _ _ _ _ _ _ (Ne.symm h4)]
    exact trimTop_length_le _ _
  · rw [coreSeg_skip _ _ _ _ _ _ _ _ (Ne.symm hk) (Ne.symm h4),
        condSeg_zsets_skip _ _ _ _
          (structSeg_skip _ _ _ _ _ _ _ _ (Ne.symm h1) (Ne.symm h2) (Ne.symm h5))]
    exact hlen

/-- One indexing call keeps a key only ever serving as a LEVEL key at or
under the 1000 cap. -/
theorem storeStep_len_level (epochOf : String → Int) (ttl : Int) (E : Entry)
    (host app comp : String) (σ : WStore) (k : String)
    (h1 : stepKeyOfE E host app comp ≠ k) (h2 : aggKeyOfE E host app comp ≠ k)
    (h5 : stepLevelKeyOfE E host app comp ≠ k)
    (h3 : primaryKeyW host app comp ≠ k)
    (h6 : legacyRKeyOfE E host app comp ≠ k)
    (h7 : legacySKeyOfE E host app comp ≠ k)
    (hlen : (σ.zsets k).length ≤ 1000) :
    ((storeStep epochOf ttl E host app comp σ).zsets k).length ≤ 1000 := by
  unfold storeStep storeOps
  rw [applyOps_append, applyOps_append, applyOps_append, applyOps_append,
      statsSeg_zsets,
      condSeg_zsets_skip _ _ _ _ (legacySSeg_skip _ _ _ _ _ _ _ _ (Ne.symm h7)),
      condSeg_zsets_skip _ _ _ _ (legacyRSeg_skip _ _ _ _ _ _ _ _ (Ne.symm h6))]
  by_cases hk : levelKeyOfE E host app comp = k
  · subst hk
    rw [coreSeg_level _ _ _ _ _ _ _ (Ne.symm h3)]
    exact trimTop_length_le _ _
  · rw [coreSeg_skip _ _ _ _ _ _ _ _ (Ne.symm h3) (Ne.symm hk),
        condSeg_zsets_skip _ _ _ _
          (structSeg_skip _ _ _ _ _ _ _ _ (Ne.symm h1) (Ne.symm h2) (Ne.symm h5))]
    exact hlen

/-- The step set after a structured segment: zadd then trim to 1000. -/
theorem structSeg_stepval (σ : WStore) (E : Entry) (host app comp : String)
    (sc ttl : Int)
    (h2 : aggKeyOfE E host app comp ≠ stepKeyOfE E host app comp)
    (h5 : stepLevelKeyOfE E host app comp ≠ stepKeyOfE E host app comp) :
    (applyOps σ (structSeg E host app comp sc ttl)).zsets (stepKeyOfE E host app comp) =
      trimTop 1000 (zaddList E sc (σ.zsets (stepKeyOfE E host app comp))) := by
  have hsp : structSeg E host app comp sc ttl =
      [WOp.zadd (stepKeyOfE E host app comp) E sc,
       WOp.expire (stepKeyOfE E host app comp) ttl,
       WOp.zremKeepTop (stepKeyOfE E host app comp) 1000] ++
      ([WOp.zadd (aggKeyOfE E host app comp) E sc,
        WOp.expire (aggKeyOfE E host app comp) ttl,
        WOp.zremKeepTop (aggKeyOfE E host app comp) 5000] ++
       [WOp.zadd (stepLevelKeyOfE E host app comp) E sc,
        WOp.expire (stepLevelKeyOfE E host app comp) ttl,
        WOp.zremKeepTop (stepLevelKeyOfE E host app comp) 500]) := rfl
  rw [hsp, applyOps_append, applyOps_append,
      seg3_ne _ _ _ _ _ _ _ (Ne.symm h5), seg3_ne _ _ _ _ _ _ _ (Ne.symm h2), seg3_at]

/-- The aggregate set after a structured segment: zadd then trim to 5000. -/
theorem structSeg_aggval (σ : WStore) (E : Entry) (host app comp : String)
    (sc ttl : Int)
    (h5 : stepLevelKeyOfE E host app comp ≠ aggKeyOfE E host app comp) :
    (applyOps σ (structSeg E host app comp sc ttl)).zsets (aggKeyOfE E host app comp) =
      trimTop 5000 (zaddList E sc ((applyOps σ
        [WOp.zadd (stepKeyOfE E host app comp) E sc,
         WOp.expire (stepKeyOfE E host app comp) ttl,
         WOp.zremKeepTop (stepKeyOfE E host app comp) 1000]).zsets
        (aggKeyOfE E host app comp))) := by
  have hsp : structSeg E host app comp sc ttl =
      [WOp.zadd (stepKeyOfE E host app comp) E sc,
       WOp.expire (stepKeyOfE E host app comp) ttl,
       WOp.zremKeepTop (stepKeyOfE E host app comp) 1000] ++
      ([WOp.zadd (aggKeyOfE E host app comp) E sc,
        WOp.expire (aggKeyOfE E host app comp) ttl,
        WOp.zremKeepTop (aggKeyOfE E host app comp) 5000] ++
       [WOp.zadd (stepLevelKeyOfE E host app comp) E sc,
        WOp.expire (stepLevelKeyOfE E host app comp) ttl,
        WOp.zremKeepTop (stepLevelKeyOfE E host app comp) 500]) := rfl
  rw [hsp, applyOps_append, applyOps_append,
      seg3_ne _ _ _ _ _ _ _ (Ne.symm h5), seg3_at]

/-- One indexing call keeps a key only ever serving as a structured STEP key
at or under the 1000 cap. -/
theorem storeStep_len_step (epochOf : String → Int) (ttl : Int) (E : Entry)
    (host app comp : String) (σ : WStore) (k : String)
    (h2 : aggKeyOfE E host app comp ≠ k)
    (h5 : stepLevelKeyOfE E host app comp ≠ k)
    (h3 : primaryKeyW host app comp ≠ k)
    (h4 : levelKeyOfE E host app comp ≠ k)
    (h6 : legacyRKeyOfE E host app comp ≠ k)
    (h7 : legacySKeyOfE E host app comp ≠ k)
    (hlen : (σ.zsets k).length ≤ 1000) :
    ((storeStep epochOf ttl E host app comp σ).zsets k).length ≤ 1000 := by
  unfold storeStep storeOps
  rw [applyOps_append, applyOps_append, applyOps_append, applyOps_append,
      statsSeg_zsets,
      condSeg_zsets_skip _ _ _ _ (legacySSeg_skip _ _ _ _ _ _ _ _ (Ne.symm h7)),
      condSeg_zsets_skip _ _ _ _ (legacyRSeg_skip _ _ _ _ _ _ _ _ (Ne.symm h6)),
      coreSeg_skip _ _ _ _ _ _ _ _ (Ne.symm h3) (Ne.symm h4)]
  split
  · by_cases hk : stepKeyOfE E host app comp = k
    · subst hk
      rw [structSeg_stepval _ _ _ _ _ _ _ h2 h5]
      exact trimTop_length_le _ _
    · rw [structSeg_skip _ _ _ _ _ _ _ _ (Ne.symm hk) (Ne.symm h2) (Ne.symm h5)]
      exact hlen
  · exact hlen

/-- One indexing call keeps a key only ever serving as a refresh-AGGREGATE
key at or under the 5000 cap. -/
theorem storeStep_len_agg (epochOf : String → Int) (ttl : Int) (E : Entry)
    (host app comp : String) (σ : WStore) (k : String)
    (h1 : stepKeyOfE E host app comp ≠ k)
    (h5 : stepLevelKeyOfE E host app comp ≠ k)
    (h3 : primaryKeyW host app comp ≠ k)
    (h4 : levelKeyOfE E host app comp ≠ k)
    (h6 : legacyRKeyOfE E host app comp ≠ k)
    (h7 : legacySKeyOfE E host app comp ≠ k)
    (hlen : (σ.zsets k).length ≤ 5000) :
    ((storeStep epochOf ttl E host app comp σ).zsets k).length ≤ 5000 := by
  unfold storeStep storeOps
  rw [applyOps_append, applyOps_append, applyOps_append, applyOps_append,
      statsSeg_zsets,
      condSeg_zsets_skip _ _ _ _ (legacySSeg_skip _ _ _ _ _ _ _ _ (Ne.symm h7)),
      condSeg_zsets_skip _ _ _ _ (legacyRSeg_skip _ _ _ _ _ _ _ _ (Ne.symm h6)),
      coreSeg_skip _ _ _ _ _ _ _ _ (Ne.symm h3) (Ne.symm h4)]
  split
  · by_cases hk : aggKeyOfE E host app comp = k
    · subst hk
      rw [structSeg_aggval _ _ _ _ _ _ _ h5]
      exact trimTop_length_le _ _
    · rw [structSeg_skip _ _ _ _ _ _ _ _ (Ne.symm h1) (Ne.symm hk) (Ne.symm h5)]
      exact hlen
  · exact hlen

/-- `runW` unfolds one call at a time. -/
theorem runW_cons (epochOf : String → Int) (ttl : Int) (c : SCall)
    (cs : List SCall) (σ : WStore) :
    runW epochOf ttl (c :: cs) σ =
      runW epochOf ttl cs (storeStep epochOf ttl c.e c.host c.app c.comp σ) := rfl

/-- Run-level preservation for primary-only keys. -/
theorem runW_len_primary (epochOf : String → Int) (ttl : Int) (k : String) :
    ∀ (calls : List SCall) (σ : WStore),
    (∀ c ∈ calls, stepKeyOfE c.e c.host c.app c.comp ≠ k ∧
      aggKeyOfE c.e c.host c.app c.comp ≠ k ∧
      stepLevelKeyOfE c.e c.host c.app c.comp ≠ k ∧
      levelKeyOfE c.e c.host c.app c.comp ≠ k ∧
      legacyRKeyOfE c.e c.host c.app c.comp ≠ k ∧
      legacySKeyOfE c.e c.host c.app c.comp ≠ k) →
    (σ.zsets k).length ≤ 10000 →
    ((runW epochOf ttl calls σ).zsets k).length ≤ 10000 := by
  intro calls
  induction calls with
  | nil => exact fun σ _ h => h
  | cons c cs ih =>
    intro σ hall hlen
    obtain ⟨g1, g2, g5, g4, g6, g7⟩ := hall c (List.mem_cons_self _ _)
    exact ih _ (fun c' hc' => hall c' (List.mem_cons_of_mem _ hc'))
      (storeStep_len_primary epochOf ttl c.e c.host c.app c.comp σ k
        g1 g2 g5 g4 g6 g7 hlen)

/-- Run-level preservation for level-only keys. -/
theorem runW_len_level (epochOf : String → Int) (ttl : Int) (k : String) :
    ∀ (calls : List SCall) (σ : WStore),
    (∀ c ∈ calls, stepKeyOfE c.e c.host c.app c.comp ≠ k ∧
      aggKeyOfE c.e c.host c.app c.comp ≠ k ∧
      stepLevelKeyOfE c.e c.host c.app c.comp ≠ k ∧
      primaryKeyW c.host c.app c.comp ≠ k ∧
      legacyRKeyOfE c.e c.host c.app c.comp ≠ k ∧
      legacySKeyOfE c.e c.host c.app c.comp ≠ k) →
    (σ.zsets k).length ≤ 1000 →
    ((runW epochOf ttl calls σ).zsets k).length ≤ 1000 := by
  intro calls
  induction calls with
  | nil => exact fun σ _ h => h
  | cons c cs ih =>
    intro σ hall hlen
    obtain ⟨g1, g2, g5, g3, g6, g7⟩ := hall c (List.mem_cons_self _ _)
    exact ih _ (fun c' hc' => hall c' (List.mem_cons_of_mem _ hc'))
      (storeStep_len_level epochOf ttl c.e c.host c.app c.comp σ k
        g1 g2 g5 g3 g6 g7 hlen)

/-- Run-level preservation for structured step-only keys. -/
theorem runW_len_step (epochOf : String → Int) (ttl : Int) (k : String) :
    ∀ (calls : List SCall) (σ : WStore),
    (∀ c ∈ calls, aggKeyOfE c.e c.host c.app c.comp ≠ k ∧
      stepLevelKeyOfE c.e c.host c.app c.comp ≠ k ∧
      primaryKeyW c.host c.app c.comp ≠ k ∧
      levelKeyOfE c.e c.host c.app c.comp ≠ k ∧
      legacyRKeyOfE c.e c.host c.app c.comp ≠ k ∧
      legacySKeyOfE c.e c.host c.app c.comp ≠ k) →
    (σ.zsets k).length ≤ 1000 →
    ((runW epochOf ttl calls σ).zsets k).length ≤ 1000 := by
  intro calls
  induction calls with
  | nil => exact fun σ _ h => h
  | cons c cs ih =>
    intro σ hall hlen
    obtain ⟨g2, g5, g3, g4, g6, g7⟩ := hall c (List.mem_cons_self _ _)
    exact ih _ (fun c' hc' => hall c' (List.mem_cons_of_mem _ hc'))
      (storeStep_len_step epochOf ttl c.e c.host c.app c.comp σ k
        g2 g5 g3 g4 g6 g7 hlen)

/-- Run-level preservation for refresh-aggregate-only keys. -/
theorem runW_len_agg (epochOf : String → Int) (ttl : Int) (k : String) :
    ∀ (calls : List SCall) (σ : WStore),
    (∀ c ∈ calls, stepKeyOfE c.e c.host c.app c.comp ≠ k ∧
      stepLevelKeyOfE c.e c.host c.app c.comp ≠ k ∧
      primaryKeyW c.host c.app c.comp ≠ k ∧
      levelKeyOfE c.e c.host c.app c.comp ≠ k ∧
      legacyRKeyOfE c.e c.host c.app c.comp ≠ k ∧
      legacySKeyOfE c.e c.host c.app c.comp ≠ k) →
    (σ.zsets k).length ≤ 5000 →
    ((runW epochOf ttl calls σ).zsets k).length ≤ 5000 := by
  intro calls
  induction calls with
  | nil => exact fun σ _ h => h
  | cons c cs ih =>
    intro σ hall hlen
    obtain ⟨g1, g5, g3, g4, g6, g7⟩ := hall c (List.mem_cons_self _ _)
    exact ih _ (fun c' hc' => hall c' (List.mem_cons_of_mem _ hc'))
      (storeStep_len_agg epochOf ttl c.e c.host c.app c.comp σ k
        g1 g5 g3 g4 g6 g7 hlen)

/-- C2 amended: the primary, level-scoped, structured step-scoped and
refresh-aggregate sets are capped (10000 / 1000 / 1000 / 5000): over any run
of the index writer from an empty store, a key that serves only one of those
roles (no record of the run addresses it as a key of a different set type)
never exceeds its cap.  The legacy flat refresh-scoped and step-scoped sets
are NOT capped — they receive no trim (see the counterexample). -/
theorem C2_amended :
    (∀ (epochOf : String → Int) (ttl : Int) (calls : List SCall) (k : String),
      (∀ c ∈ calls, stepKeyOfE c.e c.host c.app c.comp ≠ k ∧
        aggKeyOfE c.e c.host c.app c.comp ≠ k ∧
        stepLevelKeyOfE c.e c.host c.app c.comp ≠ k ∧
        levelKeyOfE c.e c.host c.app c.comp ≠ k ∧
        legacyRKeyOfE c.e c.host c.app c.comp ≠ k ∧
        legacySKeyOfE c.e c.host c.app c.comp ≠ k) →
      ((runW epochOf ttl calls emptyW).zsets k).length ≤ 10000) ∧
    (∀ (epochOf : String → Int) (ttl : Int) (calls : List SCall) (k : String),
      (∀ c ∈ calls, stepKeyOfE c.e c.host c.app c.comp ≠ k ∧
        aggKeyOfE c.e c.host c.app c.comp ≠ k ∧
        stepLevelKeyOfE c.e c.host c.app c.comp ≠ k ∧
        primaryKeyW c.host c.app c.comp ≠ k ∧
        legacyRKeyOfE c.e c.host c.app c.comp ≠ k ∧
        legacySKeyOfE c.e c.host c.app c.comp ≠ k) →
      ((runW epochOf ttl calls emptyW).zsets k).length ≤ 1000) ∧
    (∀ (epochOf : String → Int) (ttl : Int) (calls : List SCall) (k : String),
      (∀ c ∈ calls, aggKeyOfE c.e c.host c.app c.comp ≠ k ∧
        stepLevelKeyOfE c.e c.host c.app c.comp ≠ k ∧
        primaryKeyW c.host c.app c.comp ≠ k ∧
        levelKeyOfE c.e c.host c.app c.comp ≠ k ∧
        legacyRKeyOfE c.e c.host c.app c.comp ≠ k ∧
        legacySKeyOfE c.e c.host c.app c.comp ≠ k) →
      ((runW epochOf ttl calls emptyW).zsets k).length ≤ 1000) ∧
    (∀ (epochOf : String → Int) (ttl : Int) (calls : List SCall) (k : String),
      (∀ c ∈ calls, stepKeyOfE c.e c.host c.app c.comp ≠ k ∧
        stepLevelKeyOfE c.e c.host c.app c.comp ≠ k ∧
        primaryKeyW c.host c.app c.comp ≠ k ∧
        levelKeyOfE c.e c.host c.app c.comp ≠ k ∧
        legacyRKeyOfE c.e c.host c.app c.comp ≠ k ∧
        legacySKeyOfE c.e c.host c.app c.comp ≠ k) →
      ((runW epochOf ttl calls emptyW).zsets k).length ≤ 5000) := by
  refine ⟨fun epochOf ttl calls k h => ?_, fun epochOf ttl calls k h => ?_,
    fun epochOf ttl calls k h => ?_, fun epochOf ttl calls k h => ?_⟩
  · exact runW_len_primary epochOf ttl k calls emptyW h (by simp [emptyW])
  · exact runW_len_level epochOf ttl k calls emptyW h (by simp [emptyW])
  · exact runW_len_step epochOf ttl k calls emptyW h (by simp [emptyW])
  · exact runW_len_agg epochOf ttl k calls emptyW h (by simp [emptyW])

/-- C2 amended, witness: the four cap bounds at a concrete one-record run,
with the no-aliasing hypotheses discharged on the concrete key strings. -/
theorem C2_amended_witness :
    ((runW (fun _ => 0) 86400 [c2Call 0] emptyW).zsets
      (primaryKeyW "ssdev" "sports-scheduler" "general")).length ≤ 10000 ∧
    ((runW (fun _ => 0) 86400 [c2Call 0] emptyW).zsets
      (levelKeyW "ssdev" "sports-scheduler" "general" "INFO")).length ≤ 1000 ∧
    ((runW (fun _ => 0) 86400 [c2Call 0] emptyW).zsets
      (stepKeyW "h" "a" "c" "r" "s")).length ≤ 1000 ∧
    ((runW (fun _ => 0) 86400 [c2Call 0] emptyW).zsets
      (refreshAggKeyW "h" "a" "c" "r")).length ≤ 5000 :=
  ⟨C2_amended.1 (fun _ => 0) 86400 [c2Call 0] _ (by decide),
   C2_amended.2.1 (fun _ => 0) 86400 [c2Call 0] _ (by decide),
   C2_amended.2.2.1 (fun _ => 0) 86400 [c2Call 0] _ (by decide),
   C2_amended.2.2.2 (fun _ => 0) 86400 [c2Call 0] _ (by decide)⟩

/-- The operation trace of one counterexample record: non-structured, with a
truthy legacy `refresh_id` and `step`. -/
theorem c2_ops (i : Nat) :
    storeOps (fun _ => 0) 86400 (c2Entry i) "ssdev" "sports-scheduler" "general" =
      [] ++
      (coreSeg (c2Entry i) "ssdev" "sports-scheduler" "general" 0 86400 ++
      (legacyRSeg (c2Entry i) "ssdev" "sports-scheduler" "general" 0 86400 ++
      (legacySSeg (c2Entry i) "ssdev" "sports-scheduler" "general" 0 86400 ++
       statsSeg (c2Entry i) "ssdev" "sports-scheduler" 86400))) := rfl

/-- The legacy refresh set after `n` counterexample records is exactly the
`n` distinct members, newest first: the legacy keys get `ZADD` + `EXPIRE`
but no trim. -/
theorem c2_state (n : Nat) :
    (runW (fun _ => 0) 86400 (c2Calls n) emptyW).zsets c2LegacyKey =
      (List.range n).reverse.map (fun i => (c2Entry i, (0 : Int))) := by
  induction n with
  | zero => rfl
  | succ n ih =>
    have hc : c2Calls (n + 1) = c2Calls n ++ [c2Call n] := by
      simp [c2Calls, List.range_succ]
    have hrw : runW (fun _ => 0) 86400 (c2Calls (n + 1)) emptyW =
        storeStep (fun _ => 0) 86400 (c2Entry n) "ssdev" "sports-scheduler"
          "general" (runW (fun _ => 0) 86400 (c2Calls n) emptyW) := by
      rw [hc]
      simp [runW, List.foldl_append]
      rfl
    rw [hrw]
    unfold storeStep
    rw [c2_ops, List.nil_append, applyOps_append, applyOps_append, applyOps_append,
        statsSeg_zsets,
        legacySSeg_skip _ _ _ _ _ _ _ _
          (show c2LegacyKey ≠ legacyStepKeyW "ssdev" "sports-scheduler" "general" "2"
            by decide)]
    have hleg : c2LegacyKey =
        legacyRKeyOfE (c2Entry n) "ssdev" "sports-scheduler" "general" := rfl
    rw [show (applyOps (applyOps (runW (fun _ => 0) 86400 (c2Calls n) emptyW)
          (coreSeg (c2Entry n) "ssdev" "sports-scheduler" "general" 0 86400))
          (legacyRSeg (c2Entry n) "ssdev" "sports-scheduler" "general" 0 86400)).zsets
          c2LegacyKey =
        zaddList (c2Entry n) 0 ((applyOps (runW (fun _ => 0) 86400 (c2Calls n) emptyW)
          (coreSeg (c2Entry n) "ssdev" "sports-scheduler" "general" 0 86400)).zsets
          c2LegacyKey) from seg2_at _ _ _ _ _]
    rw [coreSeg_skip _ (c2Entry n) "ssdev" "sports-scheduler" "general" _ _ _
          (show c2LegacyKey ≠ primaryKeyW "ssdev" "sports-scheduler" "general"
            by decide)
          (show c2LegacyKey ≠ levelKeyW "ssdev" "sports-scheduler" "general" "INFO"
            by decide), ih]
    have hdistinct : ∀ i, i < n → ¬ (c2Entry i = c2Entry n) := by
      intro i hi hcontra
      have hline : (c2Entry i).line_number = (c2Entry n).line_number :=
        congrArg _ hcontra
      simp only [c2Entry] at hline
      omega
    have hnotin : ((List.range n).reverse.map
        (fun i => (c2Entry i, (0 : Int)))).any
          (fun p => decide (p.1 = c2Entry n)) = false := by
      rw [List.any_eq_false]
      intro p hp
      simp only [List.mem_map, List.mem_reverse, List.mem_range] at hp
      obtain ⟨i, hi, rfl⟩ := hp
      simpa using hdistinct i hi
    unfold zaddList
    rw [hnotin]
    simp [List.range_succ]

/-- C2 counterexample: the legacy flat refresh-scoped set is NOT capped.
After 10001 records with the same legacy `refresh_id` the set holds 10001
members — more than 10000, the LARGEST trim bound anywhere in the writer (and
far above the ≈5000 a refresh-scoped set is supposed to be capped at), so no
fixed maximum K is maintained for it. -/
theorem C2_counterexample :
    ((runW (fun _ => 0) 86400 (c2Calls 10001) emptyW).zsets c2LegacyKey).length
      = 10001 ∧ 10000 < 10001 := by
  constructor
  · rw [c2_state]
    simp
  · decide

/-! ### Theorems for claim C8 -/

/-- C8 counterexample: ingesting the scenario line through the ingestion
pipeline (`_parse_log_line` on the structured refresh-15 path) produces a
stored record whose `refresh_id` is `"15"` — not `"Refresh-15"` — and which
contains NO `step_number`, `duration_seconds` or `step_status` field at all:
those fields are not part of the stored record. -/
theorem C8_counterexample :
    (entryDict c8Entry).lookup "refresh_id" = some "15" ∧
    (some "15" : Option String) ≠ some "Refresh-15" ∧
    (entryDict c8Entry).lookup "step_number" = none ∧
    (entryDict c8Entry).lookup "duration_seconds" = none ∧
    (entryDict c8Entry).lookup "step_status" = none := by
  decide

/-- C8 amended: the stored record for the scenario line has `level = INFO`,
the path-derived `refresh_id = "15"` and `step_name = "step2-refresh_channels"`
(and no legacy `step` field), and carries no `step_number`,
`duration_seconds` or `step_status` keys; those three are computed only at
query time by the file-scan fallback (`read_logs_with_filters`), which for
this line yields `step_number = 2`, `duration_seconds = 4.23` and
`step_status = "completed"` — and a `refresh_id` of `"Refresh-15"` only when
the `[Refresh-15]` tag appears in the line text itself. -/
theorem C8_amended :
    c8Entry.timestamp = "2025-06-17T14:30:45-07:00" ∧
    c8Entry.level = "INFO" ∧
    c8Entry.refresh_id = some "15" ∧
    c8Entry.step_name = some "step2-refresh_channels" ∧
    c8Entry.step = none ∧
    (entryDict c8Entry).lookup "step_number" = none ∧
    (entryDict c8Entry).lookup "duration_seconds" = none ∧
    (entryDict c8Entry).lookup "step_status" = none ∧
    readMetaOf c8Line =
      { step_number := some 2, refresh_id := none,
        duration_seconds := some "4.23", step_status := some "completed" } ∧
    (readMetaOf ("[Refresh-15] " ++ c8Line)).refresh_id = some "Refresh-15" := by
  decide
